import Mathlib

/-!
Verification of the cohort-metrics pipeline of the DataModel-ClinicalData
repository (analytics_data_model.py, pandas_DataModel.py, polars_DataModel.py).

Modelling conventions for the shallow embedding:

* A dataframe is a list of rows; each pandas column operation becomes a list
  transformation that is positionally aligned with the row list.
* Timestamps are integers (a count of whole days); weights are integers.
  The fractional-day aspect of the month division is treated separately by
  rational-valued bucketer functions (month_frac, week_frac) together with
  bridging lemmas that identify the integer definitions with the source
  formulas floor(d / 30.44) etc.
* Nullable cells are Option values.  A pandas NaN/NaT is none, and arithmetic
  on none propagates none (optSub).  The pandas groupby drops rows whose key
  contains a null, which is modelled by Option-valued key functions; polars
  window functions keep null keys as ordinary group values, modelled by
  total key functions.
* pandas groupby.transform with first / last / max / count skips nulls;
  polars first / last take the literal first and last element of the group.
* The pandas expression Series.apply(math.floor) raises a ValueError on NaN;
  the month column computation is therefore modelled in the Except monad and
  returns Except.error when some datediff is null (analytics line 104 and
  pandas_DataModel lines 99 and 103).
* sort_values is modelled by a sort on the six-part key of the Ordering
  Stage; pandas places nulls last, polars places nulls first.
-/

instance {ε α : Type} [DecidableEq ε] [DecidableEq α] : DecidableEq (Except ε α) := fun x y =>
  match x, y with
  | Except.error e, Except.error f =>
      if h : e = f then Decidable.isTrue (by rw [h])
      else Decidable.isFalse (by intro hc; cases hc; exact h rfl)
  | Except.error _, Except.ok _ => Decidable.isFalse (by intro hc; cases hc)
  | Except.ok _, Except.error _ => Decidable.isFalse (by intro hc; cases hc)
  | Except.ok a, Except.ok b =>
      if h : a = b then Decidable.isTrue (by rw [h])
      else Decidable.isFalse (by intro hc; cases hc; exact h rfl)

/-- Subtraction on nullable integers: NaN propagates, as for pandas NaN and
polars null arithmetic. -/
def optSub : Option ℤ → Option ℤ → Option ℤ
  | some a, some b => some (a - b)
  | _, _ => none

/-- First non-null entry of a column fragment (pandas groupby first). -/
def firstNN (l : List (Option ℤ)) : Option ℤ := (l.filterMap id).head?

/-- Last non-null entry of a column fragment (pandas groupby last). -/
def lastNN (l : List (Option ℤ)) : Option ℤ := (l.filterMap id).getLast?

/-- Maximum of the non-null entries of a column fragment, none when every
entry is null (pandas groupby max with skipna, polars max). -/
def maxNN (l : List (Option ℤ)) : Option ℤ :=
  match l.filterMap id with
  | [] => none
  | x :: xs => some (xs.foldl max x)

/-- Number of non-null entries of a column fragment (pandas groupby count,
polars count). -/
def countNN (l : List (Option ℤ)) : ℕ := (l.filterMap id).length

/-- Column paired with its one-step lookahead: position i is paired with
position i + 1, the final position with none. -/
def adjTo (l : List (Option ℤ)) (e : Option ℤ) : List (Option ℤ) :=
  List.zipWith optSub l (l.tail ++ [e])

/-- Series.diff(-1): entry i becomes column[i] - column[i+1], computed over
the whole column (not per group); the final entry becomes null. -/
def diffNegOne (l : List (Option ℤ)) : List (Option ℤ) := adjTo l none

/-- DataFrame.drop_duplicates: remove exact duplicate rows, keeping the first
occurrence of each row value. -/
def dropDuplicates {α : Type} [DecidableEq α] : List α → List α
  | [] => []
  | x :: xs => x :: (dropDuplicates xs).filter (fun y => decide (y ≠ x))

/-- Lexicographic comparison step: strictly smaller on the projection f, or
equal on f and less-or-equal by the remaining comparison. -/
def lexB {α β : Type} [DecidableEq α] (lt : α → α → Bool) (f : β → α)
    (rest : β → β → Bool) (x y : β) : Bool :=
  lt (f x) (f y) || (decide (f x = f y) && rest x y)

/-- Boolean strict order on integers. -/
def intLT (a b : ℤ) : Bool := decide (a < b)

/-- Boolean strict order on naturals. -/
def natLT (a b : ℕ) : Bool := decide (a < b)

/-- Strict order on nullable values with nulls sorted last (pandas
sort_values default na_position). -/
def optLT {α : Type} (lt : α → α → Bool) : Option α → Option α → Bool
  | none, _ => false
  | some _, none => true
  | some a, some b => lt a b

/-- Strict order on nullable values with nulls sorted first (polars sort
default). -/
def optLTnf {α : Type} (lt : α → α → Bool) : Option α → Option α → Bool
  | none, none => false
  | none, some _ => true
  | some _, none => false
  | some a, some b => lt a b

/-- Laws making a Boolean strict order a strict total order. -/
structure LawfulLT {α : Type} (lt : α → α → Bool) : Prop where
  asymm : ∀ a b, lt a b = true → lt b a = false
  trans : ∀ a b c, lt a b = true → lt b c = true → lt a c = true
  connex : ∀ a b, lt a b = false → lt b a = false → a = b

/-- Row of the Users table (users.csv). -/
structure User where
  uid : ℕ
  gender : String
  age : ℤ
  clinicID : ℤ
  createdDate : Option ℤ
  isActive : Bool
deriving DecidableEq

/-- Row of the WeightRecords table (weights.csv). -/
structure WeightRecord where
  masterUserID : ℕ
  weight : ℤ
  createdDate : Option ℤ
  updatedDate : Option ℤ
  isActive : Bool
  isDelete : Bool
deriving DecidableEq

/-- Row of the TreatmentEpisodes table (treatments.csv). -/
structure Treatment where
  masterUserID : ℕ
  treatmentTypeID : ℤ
  startDate : Option ℤ
deriving DecidableEq

/-- Denormalized row after the two left joins, with the columns renamed as in
the source (UIDCreatedDate, Weights_CreatedDate, Weights_UpdatedDate,
Treatment_StartDate).  The weight-side and treatment-side fields are nullable
because a left join fills an absent side with nulls. -/
structure MRow where
  uid : ℕ
  gender : String
  age : ℤ
  clinicID : ℤ
  uidCreatedDate : Option ℤ
  userIsActive : Bool
  weight : Option ℤ
  wtsCreatedDate : Option ℤ
  wtsUpdatedDate : Option ℤ
  wtsIsActive : Option Bool
  wtsIsDelete : Option Bool
  treatmentTypeID : Option ℤ
  tmtStartDate : Option ℤ
deriving DecidableEq

/-- Build one joined row from a user and the (possibly absent) matched weight
record and treatment episode. -/
def mkMRow (u : User) (w : Option WeightRecord) (t : Option Treatment) : MRow where
  uid := u.uid
  gender := u.gender
  age := u.age
  clinicID := u.clinicID
  uidCreatedDate := u.createdDate
  userIsActive := u.isActive
  weight := w.map (fun x => x.weight)
  wtsCreatedDate := w.bind (fun x => x.createdDate)
  wtsUpdatedDate := w.bind (fun x => x.updatedDate)
  wtsIsActive := w.map (fun x => x.isActive)
  wtsIsDelete := w.map (fun x => x.isDelete)
  treatmentTypeID := t.map (fun x => x.treatmentTypeID)
  tmtStartDate := t.bind (fun x => x.startDate)

/-- Weight records matched to a user by the left join: all records with the
matching key, or a single null when there is none. -/
def matchedWeights (weights : List WeightRecord) (u : User) : List (Option WeightRecord) :=
  if (weights.filter (fun w => decide (w.masterUserID = u.uid))).isEmpty then [none]
  else (weights.filter (fun w => decide (w.masterUserID = u.uid))).map some

/-- Treatment episodes matched to a user by the left join: all episodes with
the matching key, or a single null when there is none. -/
def matchedTreatments (treatments : List Treatment) (u : User) : List (Option Treatment) :=
  if (treatments.filter (fun t => decide (t.masterUserID = u.uid))).isEmpty then [none]
  else (treatments.filter (fun t => decide (t.masterUserID = u.uid))).map some

/-- All joined rows contributed by one user row: the cross product of its
matched weight records and matched treatment episodes. -/
def userBlock (weights : List WeightRecord) (treatments : List Treatment)
    (u : User) : List MRow :=
  (matchedWeights weights u).flatMap fun w =>
    (matchedTreatments treatments u).map fun t => mkMRow u w t

/-- The two left joins Users to WeightRecords and then to TreatmentEpisodes,
both keyed UID = MasterUserID with Users as the left driver (source lines
56 to 62 of each variant). -/
def data_join (users : List User) (weights : List WeightRecord)
    (treatments : List Treatment) : List MRow :=
  users.flatMap (userBlock weights treatments)

/-- Level six of the sort key: Weights_UpdatedDate, nulls last. -/
def leL6 : MRow → MRow → Bool :=
  lexB (optLT intLT) (fun r : MRow => r.wtsUpdatedDate) (fun _ _ => true)

/-- Level five of the sort key: Weights_CreatedDate then level six. -/
def leL5 : MRow → MRow → Bool :=
  lexB (optLT intLT) (fun r : MRow => r.wtsCreatedDate) leL6

/-- Level four of the sort key: Treatment_StartDate then level five. -/
def leL4 : MRow → MRow → Bool :=
  lexB (optLT intLT) (fun r : MRow => r.tmtStartDate) leL5

/-- Level three of the sort key: TreatmentTypeID then level four. -/
def leL3 : MRow → MRow → Bool :=
  lexB (optLT intLT) (fun r : MRow => r.treatmentTypeID) leL4

/-- Level two of the sort key: UIDCreatedDate then level three. -/
def leL2 : MRow → MRow → Bool :=
  lexB (optLT intLT) (fun r : MRow => r.uidCreatedDate) leL3

/-- Six-part lexicographic sort order of the Ordering Stage with nulls last:
UID, UIDCreatedDate, TreatmentTypeID, Treatment_StartDate,
Weights_CreatedDate, Weights_UpdatedDate (pandas sort_values). -/
def mrowLEb : MRow → MRow → Bool :=
  lexB natLT (fun r : MRow => r.uid) leL2

/-- Propositional form of the pandas sort order. -/
def mrowLE (a b : MRow) : Prop := mrowLEb a b = true

instance : DecidableRel mrowLE := fun a b => inferInstanceAs (Decidable (mrowLEb a b = true))

/-- Same six-part sort order with nulls first (polars sort default). -/
def mrowLEbNF (a b : MRow) : Bool :=
  lexB natLT (fun r : MRow => r.uid)
    (lexB (optLTnf intLT) (fun r : MRow => r.uidCreatedDate)
      (lexB (optLTnf intLT) (fun r : MRow => r.treatmentTypeID)
        (lexB (optLTnf intLT) (fun r : MRow => r.tmtStartDate)
          (lexB (optLTnf intLT) (fun r : MRow => r.wtsCreatedDate)
            (lexB (optLTnf intLT) (fun r : MRow => r.wtsUpdatedDate)
              (fun _ _ => true)))))) a b

/-- Propositional form of the polars sort order. -/
def mrowLEnf (a b : MRow) : Prop := mrowLEbNF a b = true

instance : DecidableRel mrowLEnf := fun a b => inferInstanceAs (Decidable (mrowLEbNF a b = true))

/-- Cohort unit selected by the pipeline argument (entry contract of the
specification, cohort_unit in week or month). -/
inductive Cohort : Type where
  | week : Cohort
  | month : Cohort
deriving DecidableEq

/-- Joined row annotated with its month and week cohort-unit values. -/
abbrev BRow : Type := MRow × Option ℤ × Option ℤ

/-- Cohort-unit value of an annotated row for the selected cohort unit. -/
def cohortValue (c : Cohort) (x : BRow) : Option ℤ :=
  match c with
  | Cohort.month => x.2.1
  | Cohort.week => x.2.2

/-- Grouping key (UID, TreatmentTypeID, Treatment_StartDate, cohort value)
used by weigh_in_rate and patient_TBWL. -/
abbrev CKey : Type := ℕ × ℤ × ℤ × ℤ

/-- Cohort grouping key of a row; none when any component is null, since the
pandas groupby drops rows with a null key. -/
def ckey (c : Cohort) (x : BRow) : Option CKey :=
  x.1.treatmentTypeID.bind fun t =>
    x.1.tmtStartDate.bind fun s =>
      (cohortValue c x).bind fun v => some (x.1.uid, t, s, v)

/-- Grouping key (UID, TreatmentTypeID, Treatment_StartDate) used by
treatment_starting_weight and treatment_TBWL. -/
abbrev EKey : Type := ℕ × ℤ × ℤ

/-- Episode grouping key of a row; none when any component is null. -/
def ekey (r : MRow) : Option EKey :=
  r.treatmentTypeID.bind fun t =>
    r.tmtStartDate.bind fun s => some (r.uid, t, s)

/-- Rows of the frame belonging to the group of key k. -/
def groupRows {β κ : Type} [DecidableEq κ] (key : β → Option κ) (rs : List β)
    (k : κ) : List β :=
  rs.filter fun s => decide (key s = some k)

/-- pandas groupby(...).transform(first): every row receives the first
non-null value of its group; rows with a null key receive null. -/
def transformFirst {β κ : Type} [DecidableEq κ] (key : β → Option κ)
    (val : β → Option ℤ) (rs : List β) : List (Option ℤ) :=
  rs.map fun r => (key r).bind fun k => firstNN ((groupRows key rs k).map val)

/-- pandas groupby(...).transform(last): every row receives the last non-null
value of its group; rows with a null key receive null. -/
def transformLast {β κ : Type} [DecidableEq κ] (key : β → Option κ)
    (val : β → Option ℤ) (rs : List β) : List (Option ℤ) :=
  rs.map fun r => (key r).bind fun k => lastNN ((groupRows key rs k).map val)

/-- pandas groupby(...).transform(max): every row receives the maximum of the
non-null values of its group; null when the group has no non-null value or
the key is null. -/
def transformMax {β κ : Type} [DecidableEq κ] (key : β → Option κ)
    (val : β → Option ℤ) (rs : List β) : List (Option ℤ) :=
  rs.map fun r => (key r).bind fun k => maxNN ((groupRows key rs k).map val)

/-- pandas groupby(...).transform(count): every row receives the number of
non-null values of its group; null when the key is null. -/
def transformCount {β κ : Type} [DecidableEq κ] (key : β → Option κ)
    (val : β → Option ℤ) (rs : List β) : List (Option ℕ) :=
  rs.map fun r => (key r).map fun k => countNN ((groupRows key rs k).map val)

/-- pandas groupby on a never-null key (the UID grouping), transform(first). -/
def transformFirstTotal {β κ : Type} [DecidableEq κ] (key : β → κ)
    (val : β → Option ℤ) (rs : List β) : List (Option ℤ) :=
  rs.map fun r => firstNN ((rs.filter fun s => decide (key s = key r)).map val)

/-- Datediff column: Weights_CreatedDate minus Treatment_StartDate, null when
either side is null. -/
def datediff (r : MRow) : Option ℤ := optSub r.wtsCreatedDate r.tmtStartDate

/-- Output row of the pandas-based pipelines: the joined row plus the cohort
indices and the five metrics. -/
structure ORow where
  base : MRow
  month : Option ℤ
  week : Option ℤ
  weigh_in_rate : Option ℕ
  patient_starting_weight : Option ℤ
  treatment_starting_weight : Option ℤ
  treatment_TBWL : Option ℤ
  patient_TBWL : Option ℤ
deriving DecidableEq

namespace analytics

/-- Month index of analytics_data_model line 103 and 104: on a whole-day
datediff d the value floor(d / 30.44) + 1, computed here by integer floor
division since 30.44 = 761 / 25; the lemma analytics_month_of_spec identifies this with
the source formula. -/
def month_of (d : ℤ) : ℤ := (25 * d).fdiv 761 + 1

/-- Week index of analytics_data_model line 107: datediff days // 7 + 1
(Python floor division). -/
def week_of (d : ℤ) : ℤ := d.fdiv 7 + 1

/-- Month index on an exact fractional datediff, exactly as the source
computes it: floor of the timedelta divided by Timedelta(days = 30.44),
plus one. -/
def month_frac (x : ℚ) : ℤ := ⌊x / (761 / 25 : ℚ)⌋ + 1

/-- Week index on an exact fractional datediff, exactly as the source
computes it: the timedelta is first truncated to whole days (.dt.days),
then floor-divided by 7, plus one. -/
def week_frac (x : ℚ) : ℤ := (⌊x⌋).fdiv 7 + 1

/-- Month column of the pipeline.  Series.apply(math.floor) raises ValueError
on NaN, so a null datediff makes the whole computation fail (line 104). -/
def month_col (rs : List MRow) : Except Unit (List ℤ) :=
  rs.mapM fun r =>
    match datediff r with
    | none => Except.error ()
    | some d => Except.ok (month_of d)

/-- Ordering Stage: sort by the six-part key, nulls last. -/
def sortStage (rs : List MRow) : List MRow := List.insertionSort mrowLE rs

/-- Annotate a row with its month and week cohort values. -/
def bucket (r : MRow) : BRow :=
  (r, (datediff r).map month_of, (datediff r).map week_of)

/-- weigh_in_rate column (lines 114 to 117): per cohort group, the count of
non-null Weights_UpdatedDate entries. -/
def weigh_in_rate_col (c : Cohort) (brs : List BRow) : List (Option ℕ) :=
  transformCount (ckey c) (fun x => x.1.wtsUpdatedDate) brs

/-- patient_starting_weight column (line 121): first weight per UID. -/
def patient_starting_weight_col (rs : List MRow) : List (Option ℤ) :=
  transformFirstTotal (fun r : MRow => r.uid) (fun r => r.weight) rs

/-- treatment_starting_weight column (lines 125 to 127): first weight per
episode group. -/
def treatment_starting_weight_col (rs : List MRow) : List (Option ℤ) :=
  transformFirst ekey (fun r => r.weight) rs

/-- treatment_TBWL column (lines 136 to 140): last weight of the episode
group minus the treatment starting weight. -/
def treatment_TBWL_col (rs : List MRow) : List (Option ℤ) :=
  List.zipWith optSub (transformLast ekey (fun r => r.weight) rs)
    (treatment_starting_weight_col rs)

/-- wgt_diff column (lines 148 to 151): broadcast first weight of the cohort
group, then Series.diff(-1) over the whole column. -/
def wgt_diff_col (c : Cohort) (brs : List BRow) : List (Option ℤ) :=
  diffNegOne (transformFirst (ckey c) (fun x => x.1.weight) brs)

/-- Cohort-group maximum of the wgt_diff column, before the sign choice
(lines 155 to 158 take the negative; pandas_DataModel lines 146 to 149 use
this value unnegated). -/
def patient_TBWL_core (c : Cohort) (brs : List BRow) : List (Option ℤ) :=
  transformMax (fun y : BRow × Option ℤ => ckey c y.1) (fun y => y.2)
    (brs.zip (wgt_diff_col c brs))

/-- patient_TBWL column of analytics_data_model (lines 155 to 158): the
negated cohort-group maximum of wgt_diff. -/
def patient_TBWL_col (c : Cohort) (brs : List BRow) : List (Option ℤ) :=
  (patient_TBWL_core c brs).map (Option.map (fun q => -q))

/-- Zip the annotated rows and the five metric columns into output rows. -/
def assemble : List BRow → List (Option ℕ) → List (Option ℤ) → List (Option ℤ) →
    List (Option ℤ) → List (Option ℤ) → List ORow
  | x :: xs, a :: l1, b :: l2, c :: l3, d :: l4, e :: l5 =>
      { base := x.1, month := x.2.1, week := x.2.2, weigh_in_rate := a,
        patient_starting_weight := b, treatment_starting_weight := c,
        treatment_TBWL := d, patient_TBWL := e } :: assemble xs l1 l2 l3 l4 l5
  | _, _, _, _, _, _ => []

/-- Gender, age and clinic filter (lines 17 to 33).  A gender argument other
than all, Male or Female falls through every branch and applies no gender
restriction. -/
def filters (df : List ORow) (gender : String) (min_age max_age : ℤ)
    (clinicID : ℤ) : List ORow :=
  let g :=
    if gender = "all" then df
    else if gender = "Male" then df.filter fun r => decide (r.base.gender = "Male")
    else if gender = "Female" then df.filter fun r => decide (r.base.gender = "Female")
    else df
  let a := g.filter fun r => decide (min_age ≤ r.base.age) && decide (r.base.age ≤ max_age)
  a.filter fun r => decide (r.base.clinicID = clinicID)

/-- Sorted, annotated and fully aggregated metrics table of the analytics
pipeline, before the filter and the deduplication pass. -/
def metricsTable (users : List User) (weights : List WeightRecord)
    (treatments : List Treatment) (c : Cohort) : List ORow :=
  let s := sortStage (data_join users weights treatments)
  let brs := s.map bucket
  assemble brs (weigh_in_rate_col c brs) (patient_starting_weight_col s)
    (treatment_starting_weight_col s) (treatment_TBWL_col s)
    (patient_TBWL_col c brs)

/-- Full pipeline of analytics_data_model.data_pipeline after the load stage:
join, sort, cohort columns (failing on a null datediff), the five metrics,
the filter, and the final drop_duplicates. -/
def data_pipeline (users : List User) (weights : List WeightRecord)
    (treatments : List Treatment) (c : Cohort) (gender : String)
    (min_age max_age clinicID : ℤ) : Except Unit (List ORow) :=
  match month_col (sortStage (data_join users weights treatments)) with
  | Except.error e => Except.error e
  | Except.ok _ =>
    Except.ok (dropDuplicates (filters (metricsTable users weights treatments c)
      gender min_age max_age clinicID))

end analytics

namespace pandas

/-- Week index of pandas_DataModel lines 102 and 103 on whole-day datediff:
floor(d / 7). -/
def week_of (d : ℤ) : ℤ := d.fdiv 7

/-- Month index of pandas_DataModel lines 98 and 99 on whole-day datediff:
floor(d / 30.417), computed by integer floor division since
30.417 = 30417 / 1000. -/
def month_of (d : ℤ) : ℤ := (1000 * d).fdiv 30417

/-- Month index on an exact fractional datediff, exactly as the source
computes it: the timedelta is truncated to whole days (.dt.days) before
dividing by 30.417 and flooring. -/
def month_frac (x : ℚ) : ℤ := ⌊((⌊x⌋ : ℤ) : ℚ) / (30417 / 1000 : ℚ)⌋

/-- Week index on an exact fractional datediff, exactly as the source
computes it: whole days divided by 7, floored. -/
def week_frac (x : ℚ) : ℤ := ⌊((⌊x⌋ : ℤ) : ℚ) / (7 : ℚ)⌋

/-- patient_TBWL column of pandas_DataModel (lines 146 to 149): the
cohort-group maximum of wgt_diff, with no negation. -/
def patient_TBWL_col (c : Cohort) (brs : List BRow) : List (Option ℤ) :=
  analytics.patient_TBWL_core c brs

end pandas

namespace polars

/-- Month index of polars_DataModel lines 87 to 95: the exact duration ratio
datediff / duration(days = 30.417), floored; the lemma polars_month_of_spec
identifies this with the source formula on whole-day datediffs. -/
def month_of (d : ℤ) : ℤ := (1000 * d).fdiv 30417

/-- Week index of polars_DataModel lines 88 to 99: the exact duration ratio
datediff / duration(days = 7), floored. -/
def week_of (d : ℤ) : ℤ := d.fdiv 7

/-- Month index on an exact fractional datediff: polars divides the full
duration (no whole-day truncation) by 30.417 days and floors. -/
def month_frac (x : ℚ) : ℤ := ⌊x / (30417 / 1000 : ℚ)⌋

/-- Week index on an exact fractional datediff: the full duration divided by
7 days, floored. -/
def week_frac (x : ℚ) : ℤ := ⌊x / (7 : ℚ)⌋

/-- polars window first: the literal first element of the group, including a
null, as Expr.first does (no null skipping).  Group keys are total values:
polars groups null keys as ordinary values. -/
def transformFirstP {β κ : Type} [DecidableEq κ] (key : β → κ)
    (val : β → Option ℤ) (rs : List β) : List (Option ℤ) :=
  rs.map fun r => (((rs.filter fun s => decide (key s = key r)).map val).head?).join

/-- polars window last: the literal last element of the group. -/
def transformLastP {β κ : Type} [DecidableEq κ] (key : β → κ)
    (val : β → Option ℤ) (rs : List β) : List (Option ℤ) :=
  rs.map fun r => (((rs.filter fun s => decide (key s = key r)).map val).getLast?).join

/-- polars window count: number of non-null elements of the group. -/
def transformCountP {β κ : Type} [DecidableEq κ] (key : β → κ)
    (val : β → Option ℤ) (rs : List β) : List ℕ :=
  rs.map fun r => countNN ((rs.filter fun s => decide (key s = key r)).map val)

/-- polars window max: maximum of the non-null elements of the group, null
when all are null. -/
def transformMaxP {β κ : Type} [DecidableEq κ] (key : β → κ)
    (val : β → Option ℤ) (rs : List β) : List (Option ℤ) :=
  rs.map fun r => maxNN ((rs.filter fun s => decide (key s = key r)).map val)

/-- Cohort grouping key as a total value (polars keeps null keys). -/
def ckeyP (c : Cohort) (x : BRow) : ℕ × Option ℤ × Option ℤ × Option ℤ :=
  (x.1.uid, x.1.treatmentTypeID, x.1.tmtStartDate, cohortValue c x)

/-- Episode grouping key as a total value. -/
def ekeyP (r : MRow) : ℕ × Option ℤ × Option ℤ :=
  (r.uid, r.treatmentTypeID, r.tmtStartDate)

/-- Output row of polars_DataModel: it also retains the TEW column and is
never deduplicated. -/
structure PRow where
  base : MRow
  month : Option ℤ
  week : Option ℤ
  WIR : ℕ
  PSW : Option ℤ
  TSW : Option ℤ
  TEW : Option ℤ
  tmt_TBWL : Option ℤ
  patient_TBWL : Option ℤ
deriving DecidableEq

/-- Annotate a row with its polars month and week cohort values. -/
def bucketP (r : MRow) : BRow :=
  (r, (datediff r).map month_of, (datediff r).map week_of)

/-- Zip the annotated rows and the metric columns into polars output rows. -/
def assembleP : List BRow → List ℕ → List (Option ℤ) → List (Option ℤ) →
    List (Option ℤ) → List (Option ℤ) → List (Option ℤ) → List PRow
  | x :: xs, a :: l1, b :: l2, c :: l3, d :: l4, e :: l5, f :: l6 =>
      { base := x.1, month := x.2.1, week := x.2.2, WIR := a, PSW := b,
        TSW := c, TEW := d, tmt_TBWL := e, patient_TBWL := f } :: assembleP xs l1 l2 l3 l4 l5 l6
  | _, _, _, _, _, _, _ => []

/-- Gender, age and clinic filter of polars_DataModel lines 16 to 32: same
predicate logic as the pandas variants. -/
def filtersP (df : List PRow) (gender : String) (min_age max_age : ℤ)
    (clinicID : ℤ) : List PRow :=
  let g :=
    if gender = "all" then df
    else if gender = "Male" then df.filter fun r => decide (r.base.gender = "Male")
    else if gender = "Female" then df.filter fun r => decide (r.base.gender = "Female")
    else df
  let a := g.filter fun r => decide (min_age ≤ r.base.age) && decide (r.base.age ≤ max_age)
  a.filter fun r => decide (r.base.clinicID = clinicID)

/-- Full pipeline of polars_DataModel.data_pipeline after the load stage:
join, sort (nulls first), cohort columns (null-safe), the metrics, the
filter.  There is no deduplication pass: the filtered frame is returned
directly (lines 157 to 166). -/
def data_pipeline (users : List User) (weights : List WeightRecord)
    (treatments : List Treatment) (c : Cohort) (gender : String)
    (min_age max_age clinicID : ℤ) : List PRow :=
  let s := List.insertionSort mrowLEnf (data_join users weights treatments)
  let brs := s.map bucketP
  let wir := transformCountP (ckeyP c) (fun x => x.1.wtsUpdatedDate) brs
  let psw := transformFirstP (fun x : BRow => x.1.uid) (fun x => x.1.weight) brs
  let tsw := transformFirstP (fun x : BRow => ekeyP x.1) (fun x => x.1.weight) brs
  let tew := transformLastP (fun x : BRow => ekeyP x.1) (fun x => x.1.weight) brs
  let tmt := List.zipWith optSub tew tsw
  let wd := diffNegOne (transformFirstP (ckeyP c) (fun x => x.1.weight) brs)
  let ptbwl := transformMaxP (fun y : BRow × Option ℤ => ckeyP c y.1) (fun y => y.2)
    (brs.zip wd)
  filtersP (assembleP brs wir psw tsw tew tmt ptbwl) gender min_age max_age clinicID

end polars

/-! Concrete example rows used to instantiate the theorems below. -/

/-- Example patient 1: Female, 30, clinic 5066, account created on day 0. -/
def uA : User :=
  { uid := 1, gender := "Female", age := 30, clinicID := 5066,
    createdDate := some 0, isActive := true }

/-- Example patient 2: Male, 40, clinic 5066. -/
def uB : User :=
  { uid := 2, gender := "Male", age := 40, clinicID := 5066,
    createdDate := some 0, isActive := true }

/-- Weigh-in of patient 1: 70 units on day 1. -/
def wA1 : WeightRecord :=
  { masterUserID := 1, weight := 70, createdDate := some 1, updatedDate := some 1,
    isActive := true, isDelete := false }

/-- Weigh-in of patient 1: 68 units on day 8 (one week later). -/
def wA2 : WeightRecord :=
  { masterUserID := 1, weight := 68, createdDate := some 8, updatedDate := some 8,
    isActive := true, isDelete := false }

/-- Weigh-in of patient 1: 80 units on day 1. -/
def wA80 : WeightRecord :=
  { masterUserID := 1, weight := 80, createdDate := some 1, updatedDate := some 1,
    isActive := true, isDelete := false }

/-- Weigh-in of patient 2: 70 units on day 1. -/
def wB70 : WeightRecord :=
  { masterUserID := 2, weight := 70, createdDate := some 1, updatedDate := some 1,
    isActive := true, isDelete := false }

/-- Treatment episode of patient 1, type 10, starting day 0. -/
def tA : Treatment := { masterUserID := 1, treatmentTypeID := 10, startDate := some 0 }

/-- Treatment episode of patient 2, type 10, starting day 0. -/
def tB : Treatment := { masterUserID := 2, treatmentTypeID := 10, startDate := some 0 }

/-- Joined row of patient 1 with the day-1 weigh-in and the type-10 episode. -/
def mA1 : MRow := mkMRow uA (some wA1) (some tA)

/-- Joined row of patient 1 with the day-8 weigh-in and the type-10 episode. -/
def mA2 : MRow := mkMRow uA (some wA2) (some tA)

/-- Annotated row of mA1: month 1, week 1 under the analytics convention. -/
def bA1 : BRow := (mA1, some 1, some 1)

/-- Annotated row of mA2: month 1, week 2 under the analytics convention. -/
def bA2 : BRow := (mA2, some 1, some 2)

/-- Expected single output row of the analytics pipeline on the input
consisting of uA, wA1 and tA alone. -/
def exRow9 : ORow :=
  { base := mA1, month := some 1, week := some 1, weigh_in_rate := some 1,
    patient_starting_weight := some 70, treatment_starting_weight := some 70,
    treatment_TBWL := some 0, patient_TBWL := none }

/-! Order laws for the Boolean comparators used by the Ordering Stage. -/

theorem lawful_decideLT {α : Type} [LinearOrder α] :
    LawfulLT (fun a b : α => decide (a < b)) := by
  constructor
  · intro a b h
    simp only [decide_eq_true_eq] at h
    exact decide_eq_false (not_lt.mpr h.le)
  · intro a b c h1 h2
    simp only [decide_eq_true_eq] at h1 h2 ⊢
    exact lt_trans h1 h2
  · intro a b h1 h2
    simp only [decide_eq_false_iff_not] at h1 h2
    exact le_antisymm (not_lt.mp h2) (not_lt.mp h1)

theorem lawful_intLT : LawfulLT intLT := lawful_decideLT

theorem lawful_natLT : LawfulLT natLT := lawful_decideLT

theorem LawfulLT.irrefl {α : Type} {lt : α → α → Bool} (h : LawfulLT lt) (a : α) :
    lt a a = false := by
  cases hl : lt a a with
  | false => rfl
  | true =>
    have h2 := h.asymm a a hl
    rw [hl] at h2
    exact h2

theorem LawfulLT.opt {α : Type} {lt : α → α → Bool} (h : LawfulLT lt) :
    LawfulLT (optLT lt) := by
  constructor
  · intro a b hab
    cases a with
    | none => cases b <;> exact Bool.noConfusion hab
    | some x =>
      cases b with
      | none => rfl
      | some y => exact h.asymm x y hab
  · intro a b c h1 h2
    cases a with
    | none => cases b <;> exact Bool.noConfusion h1
    | some x =>
      cases b with
      | none => cases c <;> exact Bool.noConfusion h2
      | some y =>
        cases c with
        | none => rfl
        | some z => exact h.trans x y z h1 h2
  · intro a b h1 h2
    cases a with
    | none =>
      cases b with
      | none => rfl
      | some y => exact Bool.noConfusion h2
    | some x =>
      cases b with
      | none => exact Bool.noConfusion h1
      | some y => rw [h.connex x y h1 h2]

theorem lexB_trans {α β : Type} [DecidableEq α] {lt : α → α → Bool} (h : LawfulLT lt)
    (f : β → α) {rest : β → β → Bool}
    (hr : ∀ x y z, rest x y = true → rest y z = true → rest x z = true)
    (x y z : β) (hxy : lexB lt f rest x y = true) (hyz : lexB lt f rest y z = true) :
    lexB lt f rest x z = true := by
  simp only [lexB, Bool.or_eq_true, Bool.and_eq_true, decide_eq_true_eq] at hxy hyz ⊢
  rcases hxy with h1 | ⟨e1, r1⟩
  · rcases hyz with h2 | ⟨e2, r2⟩
    · exact Or.inl (h.trans _ _ _ h1 h2)
    · rw [← e2]
      exact Or.inl h1
  · rcases hyz with h2 | ⟨e2, r2⟩
    · rw [e1]
      exact Or.inl h2
    · exact Or.inr ⟨e1.trans e2, hr x y z r1 r2⟩

theorem lexB_total {α β : Type} [DecidableEq α] {lt : α → α → Bool} (h : LawfulLT lt)
    (f : β → α) {rest : β → β → Bool}
    (hr : ∀ x y, rest x y = true ∨ rest y x = true) (x y : β) :
    lexB lt f rest x y = true ∨ lexB lt f rest y x = true := by
  simp only [lexB, Bool.or_eq_true, Bool.and_eq_true, decide_eq_true_eq]
  cases h1 : lt (f x) (f y) with
  | true => exact Or.inl (Or.inl rfl)
  | false =>
    cases h2 : lt (f y) (f x) with
    | true => exact Or.inr (Or.inl rfl)
    | false =>
      have e := h.connex _ _ h1 h2
      rcases hr x y with hrx | hry
      · exact Or.inl (Or.inr ⟨e, hrx⟩)
      · exact Or.inr (Or.inr ⟨e.symm, hry⟩)

theorem lexB_of_eq_key {α β : Type} [DecidableEq α] {lt : α → α → Bool} (h : LawfulLT lt)
    (f : β → α) (rest : β → β → Bool) (x y : β) (he : f x = f y) :
    lexB lt f rest x y = rest x y := by
  simp [lexB, he, h.irrefl (f y)]

theorem lexB_eq_false_of_rev {α β : Type} [DecidableEq α] {lt : α → α → Bool}
    (h : LawfulLT lt) (f : β → α) (rest : β → β → Bool) (x y : β)
    (hlt : lt (f y) (f x) = true) : lexB lt f rest x y = false := by
  have h1 : lt (f x) (f y) = false := h.asymm _ _ hlt
  have h2 : f x ≠ f y := by
    intro e
    rw [e] at hlt
    rw [h.irrefl (f y)] at hlt
    exact Bool.noConfusion hlt
  simp [lexB, h1, h2]

theorem leL6_trans : ∀ x y z : MRow, leL6 x y = true → leL6 y z = true → leL6 x z = true :=
  lexB_trans lawful_intLT.opt _ (fun _ _ _ _ _ => rfl)

theorem leL6_total : ∀ x y : MRow, leL6 x y = true ∨ leL6 y x = true :=
  lexB_total lawful_intLT.opt _ (fun _ _ => Or.inl rfl)

theorem leL5_trans : ∀ x y z : MRow, leL5 x y = true → leL5 y z = true → leL5 x z = true :=
  lexB_trans lawful_intLT.opt _ leL6_trans

theorem leL5_total : ∀ x y : MRow, leL5 x y = true ∨ leL5 y x = true :=
  lexB_total lawful_intLT.opt _ leL6_total

theorem leL4_trans : ∀ x y z : MRow, leL4 x y = true → leL4 y z = true → leL4 x z = true :=
  lexB_trans lawful_intLT.opt _ leL5_trans

theorem leL4_total : ∀ x y : MRow, leL4 x y = true ∨ leL4 y x = true :=
  lexB_total lawful_intLT.opt _ leL5_total

theorem leL3_trans : ∀ x y z : MRow, leL3 x y = true → leL3 y z = true → leL3 x z = true :=
  lexB_trans lawful_intLT.opt _ leL4_trans

theorem leL3_total : ∀ x y : MRow, leL3 x y = true ∨ leL3 y x = true :=
  lexB_total lawful_intLT.opt _ leL4_total

theorem leL2_trans : ∀ x y z : MRow, leL2 x y = true → leL2 y z = true → leL2 x z = true :=
  lexB_trans lawful_intLT.opt _ leL3_trans

theorem leL2_total : ∀ x y : MRow, leL2 x y = true ∨ leL2 y x = true :=
  lexB_total lawful_intLT.opt _ leL3_total

theorem mrowLEb_trans : ∀ x y z : MRow, mrowLEb x y = true → mrowLEb y z = true → mrowLEb x z = true :=
  lexB_trans lawful_natLT _ leL2_trans

theorem mrowLEb_total : ∀ x y : MRow, mrowLEb x y = true ∨ mrowLEb y x = true :=
  lexB_total lawful_natLT _ leL2_total

instance : IsTrans MRow mrowLE := ⟨fun a b c => mrowLEb_trans a b c⟩

instance : IsTotal MRow mrowLE := ⟨fun a b => mrowLEb_total a b⟩

/-! General list lemmas used to reason about the column transforms. -/

theorem map_const_of_mem {α β : Type} {l : List α} {f : α → β} {c : β}
    (h : ∀ x ∈ l, f x = c) : l.map f = List.replicate l.length c := by
  have h2 : ∀ b ∈ l.map f, b = c := by
    intro b hb
    rcases List.mem_map.mp hb with ⟨x, hx, rfl⟩
    exact h x hx
  rw [List.eq_replicate_of_mem h2, List.length_map]

theorem snd_eq_of_mem_zip_map {α β : Type} (f : α → β) (l : List α) :
    ∀ p ∈ l.zip (l.map f), p.2 = f p.1 := by
  induction l with
  | nil => intro p hp; simp at hp
  | cons x xs ih =>
    intro p hp
    rw [List.map_cons, List.zip_cons_cons] at hp
    rcases List.mem_cons.mp hp with rfl | h2
    · rfl
    · exact ih p h2

theorem mem_zip_of_zip_map {α β γ : Type} (F : α × β → γ) :
    ∀ (l : List α) (m : List β), m.length = l.length →
      ∀ p ∈ l.zip ((l.zip m).map F), ∃ w, (p.1, w) ∈ l.zip m ∧ p.2 = F (p.1, w) := by
  intro l
  induction l with
  | nil => intro m h p hp; simp at hp
  | cons x xs ih =>
    intro m h p hp
    cases m with
    | nil => simp at h
    | cons w ws =>
      rw [List.zip_cons_cons, List.map_cons, List.zip_cons_cons] at hp
      rcases List.mem_cons.mp hp with rfl | h2
      · exact ⟨w, List.mem_cons_self _ _, rfl⟩
      · have hlen : ws.length = xs.length := by simpa using h
        rcases ih ws hlen p h2 with ⟨w2, hw1, hw2⟩
        exact ⟨w2, List.mem_cons_of_mem _ hw1, hw2⟩

theorem groupRows_block {β κ : Type} [DecidableEq κ] (key : β → Option κ)
    (pre g post : List β) (k : κ)
    (hg : ∀ x ∈ g, key x = some k)
    (hpre : ∀ x ∈ pre, key x ≠ some k)
    (hpost : ∀ x ∈ post, key x ≠ some k) :
    groupRows key (pre ++ g ++ post) k = g := by
  have h1 : pre.filter (fun s => decide (key s = some k)) = [] :=
    List.filter_eq_nil_iff.mpr (by intro a ha; simpa using hpre a ha)
  have h2 : g.filter (fun s => decide (key s = some k)) = g :=
    List.filter_eq_self.mpr (by intro a ha; simpa using hg a ha)
  have h3 : post.filter (fun s => decide (key s = some k)) = [] :=
    List.filter_eq_nil_iff.mpr (by intro a ha; simpa using hpost a ha)
  simp [groupRows, List.filter_append, h1, h2, h3]

theorem adjTo_cons_cons (a b : Option ℤ) (l : List (Option ℤ)) (e : Option ℤ) :
    adjTo (a :: b :: l) e = optSub a b :: adjTo (b :: l) e := rfl

theorem adjTo_length (l : List (Option ℤ)) (e : Option ℤ) :
    (adjTo l e).length = l.length := by
  cases l with
  | nil => rfl
  | cons x xs => simp [adjTo]

theorem adjTo_append (xs : List (Option ℤ)) (y : Option ℤ) (ys : List (Option ℤ))
    (e : Option ℤ) :
    adjTo (xs ++ y :: ys) e = adjTo xs y ++ adjTo (y :: ys) e := by
  induction xs with
  | nil => rfl
  | cons x xs ih =>
    cases xs with
    | nil => rfl
    | cons x2 xs2 =>
      have hcons : (x :: x2 :: xs2) ++ y :: ys = x :: ((x2 :: xs2) ++ y :: ys) := rfl
      rw [hcons]
      have hcons2 : (x2 :: xs2) ++ y :: ys = x2 :: (xs2 ++ y :: ys) := rfl
      rw [hcons2, adjTo_cons_cons, ← hcons2, ih, adjTo_cons_cons]
      rfl

theorem adjTo_replicate (n : ℕ) (hn : 0 < n) (c d : Option ℤ) :
    adjTo (List.replicate n c) d = List.replicate (n - 1) (optSub c c) ++ [optSub c d] := by
  induction n with
  | zero => exact absurd hn (by omega)
  | succ m ih =>
    cases m with
    | zero => rfl
    | succ m2 =>
      have h2 : 0 < m2 + 1 := by omega
      have hrep : List.replicate (m2 + 2) c = c :: List.replicate (m2 + 1) c := rfl
      have hrep2 : List.replicate (m2 + 1) c = c :: List.replicate m2 c := rfl
      rw [hrep, hrep2, adjTo_cons_cons, ← hrep2, ih h2]
      simp [List.replicate_succ]

theorem filterMap_id_replicate_some (m : ℕ) (a : ℤ) :
    (List.replicate m (some a)).filterMap id = List.replicate m a := by
  induction m with
  | zero => rfl
  | succ t ih => simp [List.replicate_succ, ih]

theorem foldl_max_replicate_zero (s : ℕ) (a : ℤ) :
    (List.replicate s (0 : ℤ)).foldl max a = if s = 0 then a else max a 0 := by
  induction s generalizing a with
  | zero => rfl
  | succ t ih =>
    rw [List.replicate_succ, List.foldl_cons, ih]
    by_cases ht : t = 0 <;> simp [ht, max_assoc]

theorem maxNN_of_filterMap (l : List (Option ℤ)) (x : ℤ) (xs : List ℤ)
    (h : l.filterMap id = x :: xs) : maxNN l = some (xs.foldl max x) := by
  unfold maxNN
  rw [h]

theorem maxNN_replicate_zero_append (m : ℕ) (v : ℤ) :
    maxNN (List.replicate m (some 0) ++ [some v]) = some (if m = 0 then v else max 0 v) := by
  cases m with
  | zero =>
    have h : ((List.replicate 0 (some (0:ℤ)) ++ [some v]).filterMap id) = v :: [] := rfl
    rw [maxNN_of_filterMap _ _ _ h]
    simp
  | succ t =>
    have h : ((List.replicate (t + 1) (some (0:ℤ)) ++ [some v]).filterMap id)
        = 0 :: (List.replicate t (0:ℤ) ++ [v]) := by
      rw [List.filterMap_append, filterMap_id_replicate_some]
      rfl
    rw [maxNN_of_filterMap _ _ _ h, List.foldl_append, foldl_max_replicate_zero]
    by_cases ht : t = 0 <;> simp [ht]

theorem firstNN_cons_some (a : ℤ) (rest : List (Option ℤ)) :
    firstNN (some a :: rest) = some a := rfl

theorem lastNN_all_some (m : List (Option ℤ)) (h : ∀ o ∈ m, o.isSome = true) :
    lastNN m = m.getLast?.join := by
  induction m using List.reverseRecOn with
  | nil => rfl
  | append_singleton l a ih =>
    have ha : a.isSome = true := h a (by simp)
    rcases Option.isSome_iff_exists.mp ha with ⟨v, rfl⟩
    unfold lastNN
    rw [List.filterMap_append]
    simp [List.getLast?_concat]

theorem firstNN_all_some (m : List (Option ℤ)) (h : ∀ o ∈ m, o.isSome = true) :
    firstNN m = m.head?.join := by
  cases m with
  | nil => rfl
  | cons o rest =>
    have ho : o.isSome = true := h o (by simp)
    rcases Option.isSome_iff_exists.mp ho with ⟨v, rfl⟩
    rfl

theorem countNN_map_eq_countP {β : Type} (val : β → Option ℤ) (l : List β) :
    countNN (l.map val) = l.countP (fun x => (val x).isSome) := by
  induction l with
  | nil => rfl
  | cons x xs ih =>
    unfold countNN at ih ⊢
    rw [List.map_cons, List.filterMap_cons]
    cases hv : val x with
    | none =>
      show (List.filterMap id (List.map val xs)).length
          = List.countP (fun y => (val y).isSome) (x :: xs)
      rw [List.countP_cons, ih, hv]
      simp
    | some a =>
      show (a :: List.filterMap id (List.map val xs)).length
          = List.countP (fun y => (val y).isSome) (x :: xs)
      rw [List.length_cons, List.countP_cons, ih, hv]
      simp

theorem map_snd_zip_eq {α β : Type} (l1 : List α) (l2 : List β)
    (h : l1.length = l2.length) : (l1.zip l2).map Prod.snd = l2 :=
  List.map_snd_zip l1 l2 (le_of_eq h.symm)

theorem dropDuplicates_nodup {α : Type} [DecidableEq α] (l : List α) :
    (dropDuplicates l).Nodup := by
  induction l with
  | nil => exact List.nodup_nil
  | cons x xs ih =>
    unfold dropDuplicates
    refine List.nodup_cons.mpr ⟨?_, ih.filter _⟩
    intro hmem
    rcases List.mem_filter.mp hmem with ⟨_, hne⟩
    simp only [decide_eq_true_eq] at hne
    exact hne rfl

/-! Floor arithmetic facts identifying the integer bucketer definitions with
the floating-point formulas of the source. -/

theorem floor_div_nat_eq_fdiv (x : ℚ) (n : ℕ) (hn : 0 < n) :
    ⌊x / (n : ℚ)⌋ = (⌊x⌋).fdiv (n : ℤ) := by
  have hq : (0 : ℚ) < (n : ℚ) := by exact_mod_cast hn
  have hz : (0 : ℤ) ≤ (n : ℤ) := by exact_mod_cast Nat.zero_le n
  rw [Int.fdiv_eq_ediv _ hz]
  have h1 : (((⌊x⌋ / (n : ℤ) : ℤ)) : ℚ) ≤ x / (n : ℚ) := by
    rw [le_div_iff₀ hq]
    have h2 : ((⌊x⌋ / (n : ℤ)) * (n : ℤ) : ℤ) ≤ ⌊x⌋ :=
      Int.ediv_mul_le ⌊x⌋ (by exact_mod_cast hn.ne')
    calc ((⌊x⌋ / (n : ℤ) : ℤ) : ℚ) * (n : ℚ)
        = (((⌊x⌋ / (n : ℤ)) * (n : ℤ) : ℤ) : ℚ) := by push_cast; ring
    _ ≤ ((⌊x⌋ : ℤ) : ℚ) := by exact_mod_cast h2
    _ ≤ x := Int.floor_le x
  have h3 : x / (n : ℚ) < (⌊x⌋ / (n : ℤ) : ℤ) + 1 := by
    rw [div_lt_iff₀ hq]
    have h4 : (⌊x⌋ : ℤ) < (⌊x⌋ / (n : ℤ) + 1) * (n : ℤ) :=
      Int.lt_ediv_add_one_mul_self ⌊x⌋ (by exact_mod_cast hn)
    have h5 : (⌊x⌋ : ℤ) + 1 ≤ (⌊x⌋ / (n : ℤ) + 1) * (n : ℤ) := h4
    calc x < (⌊x⌋ : ℚ) + 1 := Int.lt_floor_add_one x
    _ ≤ (((⌊x⌋ / (n : ℤ) + 1) * (n : ℤ) : ℤ) : ℚ) := by exact_mod_cast h5
    _ = ((⌊x⌋ / (n : ℤ) : ℤ) + 1) * (n : ℚ) := by push_cast; ring
  exact Int.floor_eq_iff.mpr ⟨h1, by exact_mod_cast h3⟩

theorem analytics_month_of_spec (d : ℤ) :
    analytics.month_of d = ⌊((d : ℚ)) / (761 / 25 : ℚ)⌋ + 1 := by
  unfold analytics.month_of
  congr 1
  have h : ((d : ℚ)) / (761 / 25 : ℚ) = ((25 * d : ℤ) : ℚ) / ((761 : ℕ) : ℚ) := by
    push_cast
    ring
  rw [h, Rat.floor_intCast_div_natCast, Int.fdiv_eq_ediv _ (by norm_num)]
  norm_num

theorem analytics_week_of_spec (d : ℤ) :
    analytics.week_of d = ⌊((d : ℚ)) / (7 : ℚ)⌋ + 1 := by
  unfold analytics.week_of
  congr 1
  have h7 : (7 : ℚ) = ((7 : ℕ) : ℚ) := by norm_num
  rw [h7, floor_div_nat_eq_fdiv _ 7 (by norm_num), Int.floor_intCast]
  norm_num

theorem pandas_month_of_spec (d : ℤ) :
    pandas.month_of d = ⌊((d : ℚ)) / (30417 / 1000 : ℚ)⌋ := by
  unfold pandas.month_of
  have h : ((d : ℚ)) / (30417 / 1000 : ℚ) = ((1000 * d : ℤ) : ℚ) / ((30417 : ℕ) : ℚ) := by
    push_cast
    ring
  rw [h, Rat.floor_intCast_div_natCast, Int.fdiv_eq_ediv _ (by norm_num)]
  norm_num

theorem pandas_week_of_spec (d : ℤ) :
    pandas.week_of d = ⌊((d : ℚ)) / (7 : ℚ)⌋ := by
  unfold pandas.week_of
  have h7 : (7 : ℚ) = ((7 : ℕ) : ℚ) := by norm_num
  rw [h7, floor_div_nat_eq_fdiv _ 7 (by norm_num), Int.floor_intCast]
  norm_num

theorem polars_month_of_spec (d : ℤ) :
    polars.month_of d = ⌊((d : ℚ)) / (30417 / 1000 : ℚ)⌋ := by
  unfold polars.month_of
  have h : ((d : ℚ)) / (30417 / 1000 : ℚ) = ((1000 * d : ℤ) : ℚ) / ((30417 : ℕ) : ℚ) := by
    push_cast
    ring
  rw [h, Rat.floor_intCast_div_natCast, Int.fdiv_eq_ediv _ (by norm_num)]
  norm_num

theorem polars_week_of_spec (d : ℤ) :
    polars.week_of d = ⌊((d : ℚ)) / (7 : ℚ)⌋ := by
  unfold polars.week_of
  have h7 : (7 : ℚ) = ((7 : ℕ) : ℚ) := by norm_num
  rw [h7, floor_div_nat_eq_fdiv _ 7 (by norm_num), Int.floor_intCast]
  norm_num

/-! Floor facts specialised to the week divisor. -/

theorem floor_div_seven (x : ℚ) : ⌊x / (7 : ℚ)⌋ = (⌊x⌋).fdiv 7 := by
  have h := floor_div_nat_eq_fdiv x 7 (by norm_num)
  have h7 : ((7 : ℕ) : ℚ) = (7 : ℚ) := by norm_num
  have h7b : ((7 : ℕ) : ℤ) = (7 : ℤ) := by norm_num
  rw [h7, h7b] at h
  exact h

theorem floor_cast_div_seven (m : ℤ) : ⌊((m : ℚ)) / (7 : ℚ)⌋ = m.fdiv 7 := by
  have h := floor_div_seven ((m : ℚ))
  rwa [Int.floor_intCast] at h

/-- Claim C10: for every gender argument with no matching branch (anything
other than Male and Female, for example the lowercase female or the empty
string), the filters function applies no gender restriction at all and
returns exactly the rows obtained with gender = all, while the age-range and
clinic filters still apply. -/
theorem C10_filters_unknown_gender (df : List ORow) (gender : String)
    (min_age max_age clinicID : ℤ)
    (h1 : gender ≠ "Male") (h2 : gender ≠ "Female") :
    analytics.filters df gender min_age max_age clinicID
      = analytics.filters df "all" min_age max_age clinicID := by
  unfold analytics.filters
  by_cases hall : gender = "all"
  · rw [hall]
  · simp [hall, h1, h2]

/-- Witness for C10: the lowercase gender argument female on a one-row frame
behaves exactly like all. -/
theorem C10_witness :
    (("female" : String) ≠ "Male" ∧ ("female" : String) ≠ "Female")
      ∧ analytics.filters [exRow9] "female" 18 72 5066
          = analytics.filters [exRow9] "all" 18 72 5066 :=
  ⟨by decide, C10_filters_unknown_gender [exRow9] "female" 18 72 5066
    (by decide) (by decide)⟩

/-- Claim C4: the claim states that a joined row with a null timestamp flows
through with null cohort indices.  The code instead applies math.floor to the
NaN month value and raises; here a user with no weight records and no
episodes (whose joined row has null timestamps from the left join) makes the
pipeline fail rather than produce a null-indexed row. -/
theorem C4_null_timestamp_raises :
    analytics.data_pipeline [uA] [] [] Cohort.week "all" 18 72 5066
      = Except.error () := by decide

/-- Claim C2: the claim states that the last cohort group of every episode
has a null patient_TBWL.  In the code Series.diff(-1) runs over the whole
sorted column, so the last cohort of patient 1 is differenced against the
first cohort weight of patient 2: with weights 80 (patient 1) and 70
(patient 2) the only (hence last) cohort group of patient 1 receives
-(80 - 70) = -10 instead of null; only the final row of the whole frame is
null. -/
theorem C2_last_cohort_leaks_across_patients :
    (analytics.data_pipeline [uA, uB] [wA80, wB70] [tA, tB] Cohort.week
        "all" 18 72 5066).map (fun l => l.map (fun o => o.patient_TBWL))
      = Except.ok [some (-10), none] := by decide

/-- Claim C5 (amended): the three variants use one indexing convention each,
consistently across week and month, and never clamp negative indices; but
they disagree as follows.  The analytics variant computes
floor(datediff / 30.44) + 1 on the exact difference and
floor(days / 7) + 1; the pandas variant truncates to whole days and computes
floor(days / 30.417) and floor(days / 7); the polars variant computes
floor(datediff / 30.417) and floor(datediff / 7) on the exact difference.
On whole-day datediffs the pipeline definitions agree with these
fractional-time formulas. -/
theorem C5_bucketer_amended (x : ℚ) (d : ℤ) :
    analytics.week_frac x = ⌊x / (7 : ℚ)⌋ + 1 ∧
    pandas.week_frac x = ⌊x / (7 : ℚ)⌋ ∧
    polars.week_frac x = ⌊x / (7 : ℚ)⌋ ∧
    analytics.month_frac x = ⌊x / (761 / 25 : ℚ)⌋ + 1 ∧
    polars.month_frac x = ⌊x / (30417 / 1000 : ℚ)⌋ ∧
    analytics.month_of d = analytics.month_frac ((d : ℚ)) ∧
    analytics.week_of d = analytics.week_frac ((d : ℚ)) ∧
    pandas.month_of d = pandas.month_frac ((d : ℚ)) ∧
    pandas.week_of d = pandas.week_frac ((d : ℚ)) ∧
    polars.month_of d = polars.month_frac ((d : ℚ)) ∧
    polars.week_of d = polars.week_frac ((d : ℚ)) ∧
    (x < 0 →
      analytics.week_frac x ≤ 0 ∧ analytics.month_frac x ≤ 0 ∧
      pandas.week_frac x < 0 ∧ pandas.month_frac x < 0 ∧
      polars.week_frac x < 0 ∧ polars.month_frac x < 0) := by
  have hw1 : analytics.week_frac x = ⌊x / (7 : ℚ)⌋ + 1 := by
    unfold analytics.week_frac
    rw [floor_div_seven]
  have hw2 : pandas.week_frac x = ⌊x / (7 : ℚ)⌋ := by
    unfold pandas.week_frac
    rw [floor_cast_div_seven, floor_div_seven]
  have hw3 : polars.week_frac x = ⌊x / (7 : ℚ)⌋ := rfl
  have hm1 : analytics.month_frac x = ⌊x / (761 / 25 : ℚ)⌋ + 1 := rfl
  have hm2 : polars.month_frac x = ⌊x / (30417 / 1000 : ℚ)⌋ := rfl
  have hb1 : analytics.month_of d = analytics.month_frac ((d : ℚ)) :=
    analytics_month_of_spec d
  have hb2 : analytics.week_of d = analytics.week_frac ((d : ℚ)) := by
    unfold analytics.week_of analytics.week_frac
    rw [Int.floor_intCast]
  have hb3 : pandas.month_of d = pandas.month_frac ((d : ℚ)) := by
    rw [pandas_month_of_spec d]
    unfold pandas.month_frac
    rw [Int.floor_intCast]
  have hb4 : pandas.week_of d = pandas.week_frac ((d : ℚ)) := by
    unfold pandas.week_of pandas.week_frac
    rw [Int.floor_intCast, floor_cast_div_seven]
  have hb5 : polars.month_of d = polars.month_frac ((d : ℚ)) :=
    polars_month_of_spec d
  have hb6 : polars.week_of d = polars.week_frac ((d : ℚ)) := by
    unfold polars.week_of polars.week_frac
    rw [floor_cast_div_seven]
  have hneg : x < 0 →
      analytics.week_frac x ≤ 0 ∧ analytics.month_frac x ≤ 0 ∧
      pandas.week_frac x < 0 ∧ pandas.month_frac x < 0 ∧
      polars.week_frac x < 0 ∧ polars.month_frac x < 0 := by
    intro hx
    have hq7 : x / (7 : ℚ) < 0 := div_neg_of_neg_of_pos hx (by norm_num)
    have hf7 : ⌊x / (7 : ℚ)⌋ < 0 := Int.floor_lt.mpr (by exact_mod_cast hq7)
    have hqm : x / (761 / 25 : ℚ) < 0 := div_neg_of_neg_of_pos hx (by norm_num)
    have hfm : ⌊x / (761 / 25 : ℚ)⌋ < 0 := Int.floor_lt.mpr (by exact_mod_cast hqm)
    have hx0 : ⌊x⌋ < 0 := Int.floor_lt.mpr (by exact_mod_cast hx)
    have hpm : pandas.month_frac x < 0 := by
      unfold pandas.month_frac
      have hc : ((⌊x⌋ : ℤ) : ℚ) < 0 := by exact_mod_cast hx0
      have hd : ((⌊x⌋ : ℤ) : ℚ) / (30417 / 1000 : ℚ) < 0 :=
        div_neg_of_neg_of_pos hc (by norm_num)
      exact Int.floor_lt.mpr (by exact_mod_cast hd)
    have hpm2 : polars.month_frac x < 0 := by
      unfold polars.month_frac
      have hd : x / (30417 / 1000 : ℚ) < 0 := div_neg_of_neg_of_pos hx (by norm_num)
      exact Int.floor_lt.mpr (by exact_mod_cast hd)
    refine ⟨?_, ?_, ?_, hpm, ?_, hpm2⟩
    · rw [hw1]
      omega
    · rw [hm1]
      omega
    · rw [hw2]
      exact hf7
    · rw [hw3]
      exact hf7
  exact ⟨hw1, hw2, hw3, hm1, hm2, hb1, hb2, hb3, hb4, hb5, hb6, hneg⟩

/-- Counterexample for C5 as stated: the claim asserts
month_index = floor(datediff / 30.44) for the pandas variant as well, but
pandas divides by 30.417, and at 213 whole days the two disagree: 7 against
6. -/
theorem C5_counterexample :
    pandas.month_frac 213 = 7 ∧ ⌊(213 : ℚ) / (761 / 25 : ℚ)⌋ = 6 ∧
      pandas.month_frac 213 ≠ ⌊(213 : ℚ) / (761 / 25 : ℚ)⌋ := by
  refine ⟨?_, ?_, ?_⟩ <;> norm_num [pandas.month_frac]

/-- Witness for C5 at datediff -1: negative cohort indices are produced, not
clamped. -/
theorem C5_witness :
    ((-1 : ℚ) < 0)
      ∧ (analytics.week_frac (-1) ≤ 0 ∧ analytics.month_frac (-1) ≤ 0 ∧
          pandas.week_frac (-1) < 0 ∧ pandas.month_frac (-1) < 0 ∧
          polars.week_frac (-1) < 0 ∧ polars.month_frac (-1) < 0) :=
  ⟨by decide,
    (C5_bucketer_amended (-1) (-1)).2.2.2.2.2.2.2.2.2.2.2 (by decide)⟩

/-! Counting lemmas for the left joins (Claim C6). -/

theorem matchedWeights_length (w : List WeightRecord) (u : User) :
    (matchedWeights w u).length
      = max (w.filter fun x => decide (x.masterUserID = u.uid)).length 1 := by
  unfold matchedWeights
  by_cases h : (w.filter fun x => decide (x.masterUserID = u.uid)).isEmpty
  · rw [if_pos h]
    rw [List.isEmpty_iff] at h
    rw [h]
    rfl
  · rw [if_neg h, List.length_map]
    rw [List.isEmpty_iff] at h
    have hpos : 0 < (w.filter fun x => decide (x.masterUserID = u.uid)).length :=
      List.length_pos.mpr h
    omega

theorem matchedTreatments_length (t : List Treatment) (u : User) :
    (matchedTreatments t u).length
      = max (t.filter fun x => decide (x.masterUserID = u.uid)).length 1 := by
  unfold matchedTreatments
  by_cases h : (t.filter fun x => decide (x.masterUserID = u.uid)).isEmpty
  · rw [if_pos h]
    rw [List.isEmpty_iff] at h
    rw [h]
    rfl
  · rw [if_neg h, List.length_map]
    rw [List.isEmpty_iff] at h
    have hpos : 0 < (t.filter fun x => decide (x.masterUserID = u.uid)).length :=
      List.length_pos.mpr h
    omega

theorem mem_userBlock_uid (w : List WeightRecord) (t : List Treatment) (u : User)
    (r : MRow) (h : r ∈ userBlock w t u) : r.uid = u.uid := by
  unfold userBlock at h
  rcases List.mem_flatMap.mp h with ⟨wo, _, hr⟩
  rcases List.mem_map.mp hr with ⟨ep, _, rfl⟩
  rfl

theorem userBlock_length (w : List WeightRecord) (t : List Treatment) (u : User) :
    (userBlock w t u).length
      = max (w.filter fun x => decide (x.masterUserID = u.uid)).length 1
        * max (t.filter fun x => decide (x.masterUserID = u.uid)).length 1 := by
  unfold userBlock
  rw [List.length_flatMap]
  have hconst : ∀ wo ∈ matchedWeights w u,
      (List.length ∘ fun wo2 => (matchedTreatments t u).map fun ep => mkMRow u wo2 ep) wo
        = (matchedTreatments t u).length := by
    intro wo _
    simp
  rw [map_const_of_mem hconst, List.sum_replicate, smul_eq_mul,
    matchedWeights_length, matchedTreatments_length]

theorem data_join_cons (u : User) (us : List User) (w : List WeightRecord)
    (t : List Treatment) :
    data_join (u :: us) w t = userBlock w t u ++ data_join us w t := by
  simp [data_join]

theorem data_join_filter_nil (us : List User) (w : List WeightRecord)
    (t : List Treatment) (P : ℕ)
    (h : us.filter (fun u => decide (u.uid = P)) = []) :
    (data_join us w t).filter (fun r => decide (r.uid = P)) = [] := by
  apply List.filter_eq_nil_iff.mpr
  intro r hr
  rcases List.mem_flatMap.mp hr with ⟨u, hu, hru⟩
  have huid := mem_userBlock_uid w t u r hru
  intro hd
  simp only [decide_eq_true_eq] at hd
  rw [huid] at hd
  have humem : u ∈ us.filter (fun v => decide (v.uid = P)) :=
    List.mem_filter.mpr ⟨hu, by simp [hd]⟩
  rw [h] at humem
  simp at humem

/-- Claim C6: for each user appearing exactly once in the Users table with N
matching weight records and M matching treatment episodes, the joined
row-set of the two left joins holds exactly max(N,1) times max(M,1) rows for
that user (nulls filling an absent side), hence at least one row even with
no weight records or no episodes. -/
theorem C6_join_row_count (users : List User) (weights : List WeightRecord)
    (treatments : List Treatment) (P : ℕ)
    (h : (users.filter fun u => decide (u.uid = P)).length = 1) :
    ((data_join users weights treatments).filter fun r => decide (r.uid = P)).length
        = max (weights.filter fun w => decide (w.masterUserID = P)).length 1
          * max (treatments.filter fun t => decide (t.masterUserID = P)).length 1
      ∧ 1 ≤ ((data_join users weights treatments).filter fun r => decide (r.uid = P)).length := by
  have main : ∀ us : List User, (us.filter fun u => decide (u.uid = P)).length = 1 →
      ((data_join us weights treatments).filter fun r => decide (r.uid = P)).length
        = max (weights.filter fun w => decide (w.masterUserID = P)).length 1
          * max (treatments.filter fun t => decide (t.masterUserID = P)).length 1 := by
    intro us
    induction us with
    | nil => intro h0; simp at h0
    | cons u us2 ih =>
      intro h0
      rw [data_join_cons, List.filter_append, List.length_append]
      by_cases hP : u.uid = P
      · have hblock : (userBlock weights treatments u).filter (fun r => decide (r.uid = P))
            = userBlock weights treatments u :=
          List.filter_eq_self.mpr (by
            intro r hr
            simp [mem_userBlock_uid weights treatments u r hr, hP])
        have hus : us2.filter (fun v => decide (v.uid = P)) = [] := by
          rw [List.filter_cons] at h0
          rw [decide_eq_true hP, if_pos rfl] at h0
          simp only [List.length_cons] at h0
          exact List.length_eq_zero.mp (by omega)
        rw [hblock, data_join_filter_nil us2 weights treatments P hus]
        simp only [List.length_nil, Nat.add_zero]
        rw [userBlock_length, hP]
      · have hblock : (userBlock weights treatments u).filter (fun r => decide (r.uid = P)) = [] :=
          List.filter_eq_nil_iff.mpr (by
            intro r hr hd
            simp only [decide_eq_true_eq] at hd
            exact hP ((mem_userBlock_uid weights treatments u r hr).symm.trans hd))
        rw [hblock]
        simp only [List.length_nil, Nat.zero_add]
        apply ih
        rw [List.filter_cons] at h0
        rw [decide_eq_false hP, if_neg (by simp)] at h0
        exact h0
  refine ⟨main users h, ?_⟩
  rw [main users h]
  have h1 : (1 : ℕ) * 1 = 1 := rfl
  calc (1 : ℕ) = 1 * 1 := rfl
  _ ≤ max (weights.filter fun w => decide (w.masterUserID = P)).length 1
        * max (treatments.filter fun t => decide (t.masterUserID = P)).length 1 :=
    Nat.mul_le_mul (le_max_right _ 1) (le_max_right _ 1)

/-- Witness for C6: patient 1 occurs once, has two weight records and one
episode, and contributes exactly two joined rows. -/
theorem C6_witness :
    (([uA].filter fun u => decide (u.uid = 1)).length = 1)
      ∧ (((data_join [uA] [wA1, wA2] [tA]).filter fun r => decide (r.uid = 1)).length
            = max ([wA1, wA2].filter fun w => decide (w.masterUserID = 1)).length 1
              * max ([tA].filter fun t => decide (t.masterUserID = 1)).length 1
          ∧ 1 ≤ ((data_join [uA] [wA1, wA2] [tA]).filter fun r => decide (r.uid = 1)).length) :=
  ⟨by decide, C6_join_row_count [uA] [wA1, wA2] [tA] 1 (by decide)⟩

/-- Claim C9 (amended): the analytics and pandas variants end with a
drop_duplicates pass, so a successful analytics pipeline output never holds
two identical rows; the polars variant has no deduplication pass (C9 as
stated fails there, see the counterexample). -/
theorem C9_analytics_dedup (users : List User) (weights : List WeightRecord)
    (treatments : List Treatment) (c : Cohort) (gender : String)
    (mi ma cid : ℤ) (l : List ORow)
    (h : analytics.data_pipeline users weights treatments c gender mi ma cid
        = Except.ok l) :
    l.Nodup := by
  unfold analytics.data_pipeline at h
  split at h
  · exact Except.noConfusion h
  · injection h with h2
    rw [← h2]
    exact dropDuplicates_nodup _

/-- Witness for C9: on the one-row input the analytics pipeline succeeds and
its output has no duplicates. -/
theorem C9_witness :
    analytics.data_pipeline [uA] [wA1] [tA] Cohort.week "all" 18 72 5066
        = Except.ok [exRow9]
      ∧ [exRow9].Nodup :=
  ⟨by decide,
    C9_analytics_dedup [uA] [wA1] [tA] Cohort.week "all" 18 72 5066 [exRow9] (by decide)⟩

/-- Counterexample for C9 as stated: the polars variant returns the filtered
frame without deduplication, so two identical input weight records produce
two identical output rows. -/
theorem C9_counterexample :
    ¬ (polars.data_pipeline [uA] [wA1, wA1] [tA] Cohort.week "all" 18 72 5066).Nodup := by
  decide

theorem option_some_bind {α β : Type} (a : α) (f : α → Option β) :
    (some a).bind f = f a := rfl

/-- Claim C8: for every cohort group (patient, treatment-type, episode-start,
cohort-unit-value), the weigh_in_rate of every row of the group equals the
number of rows in that exact group whose weight-record update timestamp is
non-null.  The group is presented as a block g of rows whose cohort key is
exactly k, the rest of the frame containing no row of that key. -/
theorem C8_weigh_in_rate (c : Cohort) (pre g post : List BRow) (k : CKey)
    (hg : ∀ x ∈ g, ckey c x = some k)
    (hpre : ∀ x ∈ pre, ckey c x ≠ some k)
    (hpost : ∀ x ∈ post, ckey c x ≠ some k) :
    ∀ p ∈ (pre ++ g ++ post).zip (analytics.weigh_in_rate_col c (pre ++ g ++ post)),
      p.1 ∈ g →
      p.2 = some (g.countP fun x => (x.1.wtsUpdatedDate).isSome) := by
  intro p hp hpg
  have h2 := snd_eq_of_mem_zip_map
    (fun r => (ckey c r).map fun kk =>
      countNN ((groupRows (ckey c) (pre ++ g ++ post) kk).map fun x => x.1.wtsUpdatedDate))
    (pre ++ g ++ post) p hp
  rw [h2]
  dsimp only
  rw [hg p.1 hpg, Option.map_some']
  rw [groupRows_block (ckey c) pre g post k hg hpre hpost]
  rw [countNN_map_eq_countP]

/-- Witness for C8: the singleton week-1 cohort group of patient 1 has
weigh_in_rate 1, its one update timestamp being non-null. -/
theorem C8_witness :
    ((∀ x ∈ [bA1], ckey Cohort.week x = some (1, 10, 0, 1))
      ∧ (∀ x ∈ ([] : List BRow), ckey Cohort.week x ≠ some (1, 10, 0, 1))
      ∧ (∀ x ∈ [bA2], ckey Cohort.week x ≠ some (1, 10, 0, 1)))
      ∧ ∀ p ∈ (([] : List BRow) ++ [bA1] ++ [bA2]).zip
            (analytics.weigh_in_rate_col Cohort.week (([] : List BRow) ++ [bA1] ++ [bA2])),
          p.1 ∈ [bA1] → p.2 = some ([bA1].countP fun x => (x.1.wtsUpdatedDate).isSome) :=
  ⟨⟨by decide, by decide, by decide⟩,
    C8_weigh_in_rate Cohort.week [] [bA1] [bA2] (1, 10, 0, 1)
      (by decide) (by decide) (by decide)⟩

/-- Claim C7: for every episode whose rows form the block g of the sorted
frame (all rows of episode key k, no other row having that key), with every
weight present, treatment_TBWL on every row of the episode equals the weight
of the last row of the block minus the weight of its first row
(treatment_starting_weight), ending minus starting, so that weight loss is
negative. -/
theorem C7_treatment_TBWL (pre g post : List MRow) (k : EKey) (rF rL : MRow)
    (wf wl : ℤ)
    (hg : ∀ x ∈ g, ekey x = some k)
    (hpre : ∀ x ∈ pre, ekey x ≠ some k)
    (hpost : ∀ x ∈ post, ekey x ≠ some k)
    (hhead : g.head? = some rF)
    (hlast : g.getLast? = some rL)
    (hwf : rF.weight = some wf)
    (hwl : rL.weight = some wl)
    (hall : ∀ x ∈ g, (x.weight).isSome = true) :
    ∀ p ∈ (pre ++ g ++ post).zip (analytics.treatment_TBWL_col (pre ++ g ++ post)),
      p.1 ∈ g →
      p.2 = some (wl - wf) ∧ (wl < wf → ∃ v, p.2 = some v ∧ v < 0) := by
  intro p hp hpg
  have hcol : analytics.treatment_TBWL_col (pre ++ g ++ post)
      = (pre ++ g ++ post).map (fun r =>
          optSub
            ((ekey r).bind fun kk =>
              lastNN ((groupRows ekey (pre ++ g ++ post) kk).map fun s => s.weight))
            ((ekey r).bind fun kk =>
              firstNN ((groupRows ekey (pre ++ g ++ post) kk).map fun s => s.weight))) := by
    unfold analytics.treatment_TBWL_col analytics.treatment_starting_weight_col
      transformLast transformFirst
    rw [List.zipWith_map, List.zipWith_same]
  rw [hcol] at hp
  have h2 := snd_eq_of_mem_zip_map _ (pre ++ g ++ post) p hp
  rw [h2, hg p.1 hpg, option_some_bind, option_some_bind]
  rw [groupRows_block ekey pre g post k hg hpre hpost]
  have hAllSome : ∀ o ∈ g.map (fun s : MRow => s.weight), o.isSome = true := by
    intro o ho
    rcases List.mem_map.mp ho with ⟨x, hx, rfl⟩
    exact hall x hx
  have hlastv : lastNN (g.map fun s => s.weight) = some wl := by
    rw [lastNN_all_some _ hAllSome, List.getLast?_map, hlast]
    simp [hwl]
  have hfirstv : firstNN (g.map fun s => s.weight) = some wf := by
    rw [firstNN_all_some _ hAllSome, List.head?_map, hhead]
    simp [hwf]
  rw [hlastv, hfirstv]
  constructor
  · rfl
  · intro hlt
    exact ⟨wl - wf, rfl, by omega⟩

/-- Witness for C7: the two-row episode of patient 1 (70 then 68) has
treatment_TBWL equal to 68 - 70 = -2 on every row, negative because weight
was lost. -/
theorem C7_witness :
    ((∀ x ∈ [mA1, mA2], ekey x = some (1, 10, 0))
      ∧ (∀ x ∈ ([] : List MRow), ekey x ≠ some (1, 10, 0))
      ∧ [mA1, mA2].head? = some mA1
      ∧ [mA1, mA2].getLast? = some mA2
      ∧ mA1.weight = some 70 ∧ mA2.weight = some 68
      ∧ (∀ x ∈ [mA1, mA2], (x.weight).isSome = true))
      ∧ ∀ p ∈ (([] : List MRow) ++ [mA1, mA2] ++ []).zip
            (analytics.treatment_TBWL_col (([] : List MRow) ++ [mA1, mA2] ++ [])),
          p.1 ∈ [mA1, mA2] →
          p.2 = some (68 - 70) ∧ ((68 : ℤ) < 70 → ∃ v, p.2 = some v ∧ v < 0) :=
  ⟨⟨by decide, by decide, by decide, by decide, by decide, by decide, by decide⟩,
    C7_treatment_TBWL [] [mA1, mA2] [] (1, 10, 0) mA1 mA2 70 68
      (by decide) (by decide) (by decide) (by decide) (by decide) (by decide)
      (by decide) (by decide)⟩

/-- Claim C1 (amended): consider a cohort group g of an episode, all of whose
rows carry the cohort key k, sitting contiguously in the sorted frame and
immediately followed by a row of the next cohort key k2 (so g is not the
final group of the frame), with no other row of key k.  Then in the
analytics variant every row of g receives
patient_TBWL = -(max of the row-wise wgt_diff entries of the group), which
equals -(cohort_first_weight(k) - cohort_first_weight(k2)) when g is a
single row, and -(max 0 (cohort_first_weight(k) - cohort_first_weight(k2)))
otherwise (interior rows of the group contribute zero differences); under
this sign a NEGATIVE patient_TBWL means weight was lost between the
consecutive cohort starts.  The pandas (and polars) variants omit the
negation and assign the unnegated maximum, so there a positive value means
weight was lost. -/
theorem C1_patient_TBWL_amended (c : Cohort) (pre g post : List BRow) (r2 : BRow)
    (k k2 : CKey) (cfirst cnext : ℤ)
    (hgne : g ≠ [])
    (hgk : ∀ x ∈ g, ckey c x = some k)
    (hr2 : ckey c r2 = some k2)
    (hkk : k ≠ k2)
    (hpre : ∀ x ∈ pre, ckey c x ≠ some k)
    (hpost : ∀ x ∈ post, ckey c x ≠ some k)
    (hfirst : firstNN (g.map fun x => x.1.weight) = some cfirst)
    (hnext : firstNN ((groupRows (ckey c) (pre ++ g ++ r2 :: post) k2).map
        fun x => x.1.weight) = some cnext) :
    (∀ p ∈ (pre ++ g ++ r2 :: post).zip
        (analytics.patient_TBWL_col c (pre ++ g ++ r2 :: post)),
      p.1 ∈ g →
      p.2 = some (-(if g.length = 1 then cfirst - cnext else max 0 (cfirst - cnext)))
        ∧ (g.length = 1 → cnext < cfirst → ∃ v, p.2 = some v ∧ v < 0))
    ∧ (∀ p ∈ (pre ++ g ++ r2 :: post).zip
        (pandas.patient_TBWL_col c (pre ++ g ++ r2 :: post)),
      p.1 ∈ g →
      p.2 = some (if g.length = 1 then cfirst - cnext else max 0 (cfirst - cnext))) := by
  set rs := pre ++ g ++ r2 :: post with hrsdef
  have hn : 0 < g.length := List.length_pos.mpr hgne
  have hpost2 : ∀ x ∈ r2 :: post, ckey c x ≠ some k := by
    intro x hx
    rcases List.mem_cons.mp hx with rfl | hx2
    · rw [hr2]
      intro hcon
      exact hkk (Option.some.inj hcon).symm
    · exact hpost x hx2
  have hgrp : groupRows (ckey c) rs k = g :=
    groupRows_block (ckey c) pre g (r2 :: post) k hgk hpre hpost2
  have hcfw : transformFirst (ckey c) (fun x => x.1.weight) rs
      = (pre.map (fun r => (ckey c r).bind fun kk =>
            firstNN ((groupRows (ckey c) rs kk).map fun x => x.1.weight))
          ++ List.replicate g.length (some cfirst))
        ++ some cnext :: post.map (fun r => (ckey c r).bind fun kk =>
            firstNN ((groupRows (ckey c) rs kk).map fun x => x.1.weight)) := by
    unfold transformFirst
    rw [hrsdef, List.map_append, List.map_append, List.map_cons]
    congr 1
    · congr 1
      apply map_const_of_mem
      intro x hx
      dsimp only
      rw [hgk x hx, option_some_bind, ← hrsdef, hgrp, hfirst]
    · congr 1
      dsimp only
      rw [hr2, option_some_bind, ← hrsdef, hnext]
  have hwd : analytics.wgt_diff_col c rs
      = adjTo (pre.map (fun r => (ckey c r).bind fun kk =>
            firstNN ((groupRows (ckey c) rs kk).map fun x => x.1.weight))) (some cfirst)
        ++ ((List.replicate (g.length - 1) (some 0) ++ [some (cfirst - cnext)])
            ++ adjTo (some cnext :: post.map (fun r => (ckey c r).bind fun kk =>
                firstNN ((groupRows (ckey c) rs kk).map fun x => x.1.weight))) none) := by
    unfold analytics.wgt_diff_col diffNegOne
    rw [hcfw, List.append_assoc]
    have hsplit : List.replicate g.length (some cfirst)
          ++ some cnext :: post.map (fun r => (ckey c r).bind fun kk =>
              firstNN ((groupRows (ckey c) rs kk).map fun x => x.1.weight))
        = some cfirst :: (List.replicate (g.length - 1) (some cfirst)
            ++ some cnext :: post.map (fun r => (ckey c r).bind fun kk =>
                firstNN ((groupRows (ckey c) rs kk).map fun x => x.1.weight))) := by
      cases hgl : g.length with
      | zero => omega
      | succ m =>
        rw [List.replicate_succ]
        simp
    rw [hsplit, adjTo_append, ← hsplit, adjTo_append, adjTo_replicate g.length hn]
    simp [optSub, sub_self]
  have hzip : rs.zip (analytics.wgt_diff_col c rs)
      = pre.zip (adjTo (pre.map (fun r => (ckey c r).bind fun kk =>
            firstNN ((groupRows (ckey c) rs kk).map fun x => x.1.weight))) (some cfirst))
        ++ (g.zip (List.replicate (g.length - 1) (some 0) ++ [some (cfirst - cnext)])
            ++ (r2 :: post).zip (adjTo (some cnext :: post.map (fun r => (ckey c r).bind fun kk =>
                firstNN ((groupRows (ckey c) rs kk).map fun x => x.1.weight))) none)) := by
    rw [hwd]
    rw [show rs = pre ++ (g ++ r2 :: post) from by rw [hrsdef, List.append_assoc]]
    rw [List.zip_append (by rw [adjTo_length, List.length_map])]
    congr 1
    rw [List.zip_append (by simp; omega)]
  have hfilter : groupRows (fun z : BRow × Option ℤ => ckey c z.1)
        (rs.zip (analytics.wgt_diff_col c rs)) k
      = g.zip (List.replicate (g.length - 1) (some 0) ++ [some (cfirst - cnext)]) := by
    unfold groupRows
    rw [hzip, List.filter_append, List.filter_append]
    have hf1 : (pre.zip (adjTo (pre.map (fun r => (ckey c r).bind fun kk =>
          firstNN ((groupRows (ckey c) rs kk).map fun x => x.1.weight))) (some cfirst))).filter
          (fun z => decide (ckey c z.1 = some k)) = [] := by
      apply List.filter_eq_nil_iff.mpr
      intro a ha hd
      obtain ⟨a1, a2⟩ := a
      simp only [decide_eq_true_eq] at hd
      exact hpre a1 (List.of_mem_zip ha).1 hd
    have hf2 : (g.zip (List.replicate (g.length - 1) (some (0:ℤ))
            ++ [some (cfirst - cnext)])).filter
          (fun z => decide (ckey c z.1 = some k))
        = g.zip (List.replicate (g.length - 1) (some 0) ++ [some (cfirst - cnext)]) := by
      apply List.filter_eq_self.mpr
      intro a ha
      obtain ⟨a1, a2⟩ := a
      simp [hgk a1 (List.of_mem_zip ha).1]
    have hf3 : ((r2 :: post).zip (adjTo (some cnext :: post.map (fun r => (ckey c r).bind fun kk =>
          firstNN ((groupRows (ckey c) rs kk).map fun x => x.1.weight))) none)).filter
          (fun z => decide (ckey c z.1 = some k)) = [] := by
      apply List.filter_eq_nil_iff.mpr
      intro a ha hd
      obtain ⟨a1, a2⟩ := a
      simp only [decide_eq_true_eq] at hd
      exact hpost2 a1 (List.of_mem_zip ha).1 hd
    rw [hf1, hf2, hf3]
    simp
  have hvals : (g.zip (List.replicate (g.length - 1) (some (0:ℤ))
        ++ [some (cfirst - cnext)])).map (fun z => z.2)
      = List.replicate (g.length - 1) (some 0) ++ [some (cfirst - cnext)] :=
    map_snd_zip_eq _ _ (by simp; omega)
  have hmax : maxNN ((groupRows (fun z : BRow × Option ℤ => ckey c z.1)
        (rs.zip (analytics.wgt_diff_col c rs)) k).map fun z => z.2)
      = some (if g.length = 1 then cfirst - cnext else max 0 (cfirst - cnext)) := by
    rw [hfilter, hvals, maxNN_replicate_zero_append]
    by_cases h1 : g.length = 1
    · simp [h1]
    · have h2 : g.length - 1 ≠ 0 := by omega
      simp [h1, h2]
  have hwdlen : (analytics.wgt_diff_col c rs).length = rs.length := by
    unfold analytics.wgt_diff_col diffNegOne
    rw [adjTo_length]
    unfold transformFirst
    rw [List.length_map]
  constructor
  · intro p hp hpg
    have hcol : analytics.patient_TBWL_col c rs
        = (rs.zip (analytics.wgt_diff_col c rs)).map (fun y =>
            Option.map (fun q => -q) ((ckey c y.1).bind fun kk =>
              maxNN ((groupRows (fun z : BRow × Option ℤ => ckey c z.1)
                (rs.zip (analytics.wgt_diff_col c rs)) kk).map fun z => z.2))) := by
      unfold analytics.patient_TBWL_col analytics.patient_TBWL_core transformMax
      rw [List.map_map]
      rfl
    rw [hcol] at hp
    obtain ⟨w, hw, hpw⟩ :=
      mem_zip_of_zip_map _ rs (analytics.wgt_diff_col c rs) hwdlen p hp
    rw [hpw]
    dsimp only
    rw [hgk p.1 hpg, option_some_bind, hmax]
    constructor
    · rfl
    · intro h1 hlt
      rw [if_pos h1]
      exact ⟨-(cfirst - cnext), rfl, by omega⟩
  · intro p hp hpg
    have hcol : pandas.patient_TBWL_col c rs
        = (rs.zip (analytics.wgt_diff_col c rs)).map (fun y =>
            (ckey c y.1).bind fun kk =>
              maxNN ((groupRows (fun z : BRow × Option ℤ => ckey c z.1)
                (rs.zip (analytics.wgt_diff_col c rs)) kk).map fun z => z.2)) := by
      unfold pandas.patient_TBWL_col analytics.patient_TBWL_core transformMax
      rfl
    rw [hcol] at hp
    obtain ⟨w, hw, hpw⟩ :=
      mem_zip_of_zip_map _ rs (analytics.wgt_diff_col c rs) hwdlen p hp
    rw [hpw]
    dsimp only
    rw [hgk p.1 hpg, option_some_bind, hmax]

/-- Counterexample for C1 as stated: patient 1 weighs 70 in week 1 and 68 in
week 2 of one episode, so weight was LOST between the consecutive cohort
periods (68 < 70); the analytics pipeline, whose patient_TBWL is the negated
group maximum of wgt_diff, assigns the week-1 row the NEGATIVE value -2.  A
positive patient_TBWL therefore cannot mean that weight was lost: the sign
reading of the claim is inverted for the variant that carries the negation
(and the unnegated pandas/polars value +2 contradicts the negation formula
instead). -/
theorem C1_counterexample :
    (analytics.data_pipeline [uA] [wA1, wA2] [tA] Cohort.week "all" 18 72 5066).map
        (fun l => l.map (fun o => o.patient_TBWL))
      = Except.ok [some (-2), none]
      ∧ (68 : ℤ) < 70 ∧ (-2 : ℤ) < 0 := by decide

/-- Witness for C1: the singleton week-1 group of patient 1 followed by the
week-2 row receives -(70 - 68) = -2 in the analytics variant and +2 in the
pandas variant. -/
theorem C1_witness :
    (([bA1] : List BRow) ≠ []
      ∧ (∀ x ∈ [bA1], ckey Cohort.week x = some (1, 10, 0, 1))
      ∧ ckey Cohort.week bA2 = some (1, 10, 0, 2)
      ∧ ((1, 10, 0, 1) : CKey) ≠ (1, 10, 0, 2)
      ∧ (∀ x ∈ ([] : List BRow), ckey Cohort.week x ≠ some (1, 10, 0, 1))
      ∧ (∀ x ∈ ([] : List BRow), ckey Cohort.week x ≠ some (1, 10, 0, 1))
      ∧ firstNN ([bA1].map fun x => x.1.weight) = some 70
      ∧ firstNN ((groupRows (ckey Cohort.week) (([] : List BRow) ++ [bA1] ++ bA2 :: [])
            (1, 10, 0, 2)).map fun x => x.1.weight) = some 68)
      ∧ ((∀ p ∈ (([] : List BRow) ++ [bA1] ++ bA2 :: []).zip
            (analytics.patient_TBWL_col Cohort.week (([] : List BRow) ++ [bA1] ++ bA2 :: [])),
          p.1 ∈ [bA1] →
          p.2 = some (-(if ([bA1] : List BRow).length = 1 then 70 - 68 else max 0 (70 - 68)))
            ∧ (([bA1] : List BRow).length = 1 → (68 : ℤ) < 70 → ∃ v, p.2 = some v ∧ v < 0))
        ∧ (∀ p ∈ (([] : List BRow) ++ [bA1] ++ bA2 :: []).zip
            (pandas.patient_TBWL_col Cohort.week (([] : List BRow) ++ [bA1] ++ bA2 :: [])),
          p.1 ∈ [bA1] →
          p.2 = some (if ([bA1] : List BRow).length = 1 then 70 - 68 else max 0 (70 - 68)))) :=
  ⟨⟨by decide, by decide, by decide, by decide, by decide, by decide, by decide, by decide⟩,
    C1_patient_TBWL_amended Cohort.week [] [bA1] [] bA2 (1, 10, 0, 1) (1, 10, 0, 2) 70 68
      (by decide) (by decide) (by decide) (by decide) (by decide) (by decide)
      (by decide) (by decide)⟩

/-! Membership lemmas for the join, used for Claim C3. -/

theorem mem_userBlock_intro (w : List WeightRecord) (t : List Treatment) (u : User)
    (wo : Option WeightRecord) (ep : Option Treatment)
    (hwo : wo ∈ matchedWeights w u) (hep : ep ∈ matchedTreatments t u) :
    mkMRow u wo ep ∈ userBlock w t u := by
  unfold userBlock
  exact List.mem_flatMap.mpr ⟨wo, hwo, List.mem_map.mpr ⟨ep, hep, rfl⟩⟩

theorem mem_userBlock_elim (w : List WeightRecord) (t : List Treatment) (u : User)
    (r : MRow) (h : r ∈ userBlock w t u) :
    ∃ wo ∈ matchedWeights w u, ∃ ep ∈ matchedTreatments t u, r = mkMRow u wo ep := by
  unfold userBlock at h
  rcases List.mem_flatMap.mp h with ⟨wo, hwo, hr⟩
  rcases List.mem_map.mp hr with ⟨ep, hep, hre⟩
  exact ⟨wo, hwo, ep, hep, hre.symm⟩

theorem matchedTreatments_ne_nil (t : List Treatment) (u : User) :
    matchedTreatments t u ≠ [] := by
  unfold matchedTreatments
  by_cases h : (t.filter fun x => decide (x.masterUserID = u.uid)).isEmpty
  · rw [if_pos h]
    simp
  · rw [if_neg h]
    intro hmapnil
    have hnil : (t.filter fun x => decide (x.masterUserID = u.uid)) = [] := by
      simpa using hmapnil
    exact h (List.isEmpty_iff.mpr hnil)

theorem mem_matchedWeights_some (weights : List WeightRecord) (u : User)
    (wstar : WeightRecord) (hmem : wstar ∈ weights)
    (hk : wstar.masterUserID = u.uid) :
    some wstar ∈ matchedWeights weights u := by
  have hfilmem : wstar ∈ weights.filter (fun x => decide (x.masterUserID = u.uid)) :=
    List.mem_filter.mpr ⟨hmem, by simp [hk]⟩
  unfold matchedWeights
  rw [if_neg]
  · exact List.mem_map.mpr ⟨wstar, hfilmem, rfl⟩
  · intro hempt
    rw [List.isEmpty_iff] at hempt
    rw [hempt] at hfilmem
    simp at hfilmem

/-- Claim C3: for a patient P present in the Users table who has at least one
weight record, with wstar the chronologically first weight record of P
(strictly earliest non-null creation timestamp among the weight records of
P, under the nulls-last order used by the sort), patient_starting_weight on
every row of P in the sorted joined frame equals the weight value of wstar --
even though the treatment-type and episode-start columns precede the weight
timestamp in the sort key, because the join pairs every weight record with
every episode. -/
theorem C3_patient_starting_weight (users : List User)
    (weights : List WeightRecord) (treatments : List Treatment)
    (P : ℕ) (wstar : WeightRecord)
    (h1 : ∃ u ∈ users, u.uid = P)
    (h2 : wstar ∈ weights)
    (h2b : wstar.masterUserID = P)
    (h3 : ∀ w ∈ weights, w.masterUserID = P → w ≠ wstar →
      optLT intLT wstar.createdDate w.createdDate = true) :
    ∀ p ∈ (analytics.sortStage (data_join users weights treatments)).zip
        (analytics.patient_starting_weight_col
          (analytics.sortStage (data_join users weights treatments))),
      p.1.uid = P → p.2 = some wstar.weight := by
  set J := data_join users weights treatments with hJ
  set S := analytics.sortStage J with hS
  have hperm : S.Perm J := List.perm_insertionSort mrowLE J
  have hsorted : List.Pairwise mrowLE S := List.sorted_insertionSort mrowLE J
  have hWne : weights.filter (fun x => decide (x.masterUserID = P)) ≠ [] := by
    intro hnil
    have hmm : wstar ∈ weights.filter (fun x => decide (x.masterUserID = P)) :=
      List.mem_filter.mpr ⟨h2, by simp [h2b]⟩
    rw [hnil] at hmm
    simp at hmm
  have hdecomp : ∀ r ∈ S, r.uid = P →
      ∃ u ∈ users, ∃ w ∈ weights, ∃ ep ∈ matchedTreatments treatments u,
        u.uid = P ∧ w.masterUserID = P ∧ r = mkMRow u (some w) ep := by
    intro r hr hrP
    have hrJ : r ∈ J := hperm.mem_iff.mp hr
    rcases List.mem_flatMap.mp hrJ with ⟨u, hu, hrb⟩
    rcases mem_userBlock_elim weights treatments u r hrb with ⟨wo, hwo, ep, hep, hre⟩
    have huP : u.uid = P := by
      rw [← hrP, hre]
      rfl
    have hne : weights.filter (fun x => decide (x.masterUserID = u.uid)) ≠ [] := by
      rw [show u.uid = P from huP]
      exact hWne
    have hmw : matchedWeights weights u
        = (weights.filter fun x => decide (x.masterUserID = u.uid)).map some := by
      unfold matchedWeights
      rw [if_neg]
      intro hempt
      rw [List.isEmpty_iff] at hempt
      exact hne hempt
    rw [hmw] at hwo
    rcases List.mem_map.mp hwo with ⟨w, hwfil, hwoeq⟩
    rcases List.mem_filter.mp hwfil with ⟨hwmem, hwuid⟩
    simp only [decide_eq_true_eq] at hwuid
    refine ⟨u, hu, w, hwmem, ep, hep, huP, hwuid.trans huP, ?_⟩
    rw [hre, ← hwoeq]
  intro p hp hpP
  have hcoleq : analytics.patient_starting_weight_col S
      = S.map (fun r => firstNN ((S.filter fun s => decide (s.uid = r.uid)).map
          fun s => s.weight)) := rfl
  rw [hcoleq] at hp
  have h2p := snd_eq_of_mem_zip_map
    (fun r => firstNN ((S.filter fun s => decide (s.uid = r.uid)).map fun s => s.weight))
    S p hp
  rw [h2p]
  dsimp only
  rw [hpP]
  obtain ⟨u1, hu1, hu1P⟩ := h1
  have hsw : some wstar ∈ matchedWeights weights u1 :=
    mem_matchedWeights_some weights u1 wstar h2 (by rw [h2b, hu1P])
  obtain ⟨ep1, hep1⟩ := List.exists_mem_of_ne_nil _ (matchedTreatments_ne_nil treatments u1)
  have hy1 : mkMRow u1 (some wstar) ep1 ∈ S := by
    apply hperm.mem_iff.mpr
    exact List.mem_flatMap.mpr ⟨u1, hu1, mem_userBlock_intro weights treatments u1 _ _ hsw hep1⟩
  have hy1L : mkMRow u1 (some wstar) ep1 ∈ S.filter (fun s => decide (s.uid = P)) :=
    List.mem_filter.mpr ⟨hy1, by simp [mkMRow, hu1P]⟩
  have hLpair : List.Pairwise mrowLE (S.filter (fun s => decide (s.uid = P))) :=
    List.Pairwise.filter _ hsorted
  cases hLcons : S.filter (fun s => decide (s.uid = P)) with
  | nil =>
    rw [hLcons] at hy1L
    simp at hy1L
  | cons x0 L2 =>
    have hx0L : x0 ∈ S.filter (fun s => decide (s.uid = P)) := by
      rw [hLcons]
      exact List.mem_cons_self _ _
    rcases List.mem_filter.mp hx0L with ⟨hx0S, hx0uid⟩
    simp only [decide_eq_true_eq] at hx0uid
    obtain ⟨u0, hu0, w0, hw0, ep0, hep0, hu0P, hw0P, hx0eq⟩ := hdecomp x0 hx0S hx0uid
    have hmain : w0 = wstar := by
      by_contra hws
      have hswu0 : some wstar ∈ matchedWeights weights u0 :=
        mem_matchedWeights_some weights u0 wstar h2 (by rw [h2b, hu0P])
      have hyS : mkMRow u0 (some wstar) ep0 ∈ S := by
        apply hperm.mem_iff.mpr
        exact List.mem_flatMap.mpr
          ⟨u0, hu0, mem_userBlock_intro weights treatments u0 _ _ hswu0 hep0⟩
      have hyL : mkMRow u0 (some wstar) ep0 ∈ S.filter (fun s => decide (s.uid = P)) :=
        List.mem_filter.mpr ⟨hyS, by simp [mkMRow, hu0P]⟩
      rw [hLcons] at hyL
      rcases List.mem_cons.mp hyL with heq | hyL2
      · have heq2 : mkMRow u0 (some wstar) ep0 = mkMRow u0 (some w0) ep0 := by
          rw [heq, hx0eq]
        have hcd : wstar.createdDate = w0.createdDate :=
          congrArg MRow.wtsCreatedDate heq2
        have hlt := h3 w0 hw0 hw0P hws
        rw [← hcd] at hlt
        rw [(lawful_intLT.opt).irrefl wstar.createdDate] at hlt
        exact Bool.noConfusion hlt
      · have hle : mrowLEb x0 (mkMRow u0 (some wstar) ep0) = true := by
          rw [hLcons] at hLpair
          exact (List.pairwise_cons.mp hLpair).1 _ hyL2
        rw [hx0eq] at hle
        have hcollapse : mrowLEb (mkMRow u0 (some w0) ep0) (mkMRow u0 (some wstar) ep0)
            = leL5 (mkMRow u0 (some w0) ep0) (mkMRow u0 (some wstar) ep0) := by
          unfold mrowLEb
          rw [lexB_of_eq_key lawful_natLT (fun r : MRow => r.uid) leL2
            (mkMRow u0 (some w0) ep0) (mkMRow u0 (some wstar) ep0) rfl]
          unfold leL2
          rw [lexB_of_eq_key lawful_intLT.opt (fun r : MRow => r.uidCreatedDate) leL3
            (mkMRow u0 (some w0) ep0) (mkMRow u0 (some wstar) ep0) rfl]
          unfold leL3
          rw [lexB_of_eq_key lawful_intLT.opt (fun r : MRow => r.treatmentTypeID) leL4
            (mkMRow u0 (some w0) ep0) (mkMRow u0 (some wstar) ep0) rfl]
          unfold leL4
          rw [lexB_of_eq_key lawful_intLT.opt (fun r : MRow => r.tmtStartDate) leL5
            (mkMRow u0 (some w0) ep0) (mkMRow u0 (some wstar) ep0) rfl]
        have hfalse : leL5 (mkMRow u0 (some w0) ep0) (mkMRow u0 (some wstar) ep0) = false := by
          unfold leL5
          apply lexB_eq_false_of_rev lawful_intLT.opt
          exact h3 w0 hw0 hw0P hws
        rw [hcollapse, hfalse] at hle
        exact Bool.noConfusion hle
    rw [List.map_cons, hx0eq]
    rw [show (mkMRow u0 (some w0) ep0).weight = some w0.weight from rfl]
    rw [firstNN_cons_some, hmain]

/-- Witness for C3: patient 1 has weigh-ins on day 1 (70) and day 8 (68); the
chronologically first record is the day-1 one, and every row of patient 1
carries patient_starting_weight 70. -/
theorem C3_witness :
    ((∃ u ∈ [uA], u.uid = 1)
      ∧ wA1 ∈ [wA1, wA2]
      ∧ wA1.masterUserID = 1
      ∧ (∀ w ∈ [wA1, wA2], w.masterUserID = 1 → w ≠ wA1 →
          optLT intLT wA1.createdDate w.createdDate = true))
      ∧ ∀ p ∈ (analytics.sortStage (data_join [uA] [wA1, wA2] [tA])).zip
            (analytics.patient_starting_weight_col
              (analytics.sortStage (data_join [uA] [wA1, wA2] [tA]))),
          p.1.uid = 1 → p.2 = some wA1.weight :=
  ⟨⟨by decide, by decide, by decide, by decide⟩,
    C3_patient_starting_weight [uA] [wA1, wA2] [tA] 1 wA1
      (by decide) (by decide) (by decide) (by decide)⟩
